import Mathlib

/-!
# Transfer extraction of the Tron wallet adaptor (`wallet/tron/tron.go`)

A shallow embedding of the contract decoders and of `GetTxByHash`, `GetBalance`
and `SendTx`.

* Go `[]byte` is `List Byte`; a Go `string` is a byte sequence as well, so it is
  `GoString = List Byte` (a `string(b)` conversion is the identity on bytes).
* A Go `(value, error)` result is a pair whose second component is `Option GoError`.
* A run-time fault (index or slice out of range, nil dereference) is explicit:
  functions that index or slice return in `Run`, which is `Except Fault`.
* The third-party packages (protobuf unwrapping, the address text encoder) and the
  RPC client are parameters: `Env` and `Client`.  `gotron` is a concrete `Env`.
-/

namespace Tron

/-! ## Bytes, strings, faults -/

abbrev Byte := Fin 256

abbrev GoString := List Byte

/-- A Go string literal (ASCII) as its bytes. -/
def goString (s : String) : GoString := s.toList.map (fun c => Fin.ofNat c.toNat)

inductive Fault where
  | indexOutOfRange
  | sliceOutOfRange
  | nilDereference
  deriving DecidableEq, Repr

abbrev Run (α : Type) := Except Fault α

/-- Go `xs[i]`. -/
def index {α : Type} (xs : List α) (i : Nat) : Run α :=
  match xs[i]? with
  | some x => .ok x
  | none => .error .indexOutOfRange

/-- Go `xs[lo:]`. -/
def sliceFrom {α : Type} (xs : List α) (lo : Nat) : Run (List α) :=
  if lo ≤ xs.length then .ok (xs.drop lo) else .error .sliceOutOfRange

/-- Go `xs[lo:hi]` (the bound used is the length; the callers slice again with
`xs[hi:]`, which is bounded by the length in Go too). -/
def slice {α : Type} (xs : List α) (lo hi : Nat) : Run (List α) :=
  if lo ≤ hi ∧ hi ≤ xs.length then .ok ((xs.take hi).drop lo) else .error .sliceOutOfRange

/-! ## Standard-library functions the decoders call -/

/-- One decimal digit as its ASCII byte. -/
def digitByte (d : Nat) : Byte := Fin.ofNat (48 + d % 10)

/-- Decimal digits of `n`, most significant first, in front of `acc`. -/
def decimalCore : Nat → Nat → GoString → GoString
  | 0, _, acc => acc
  | fuel + 1, n, acc =>
    if n / 10 = 0 then digitByte n :: acc
    else decimalCore fuel (n / 10) (digitByte n :: acc)

/-- Base-10 text of a natural number. -/
def natString (n : Nat) : GoString := decimalCore (n + 1) n []

/-- Go `(*big.Int).String()`: base-10 text, with a leading `-` when negative. -/
def bigIntString (z : Int) : GoString :=
  if z < 0 then (45 : Byte) :: natString z.natAbs else natString z.natAbs

/-- Go `new(big.Int).SetBytes(b)`: the big-endian unsigned value of `b`. -/
def setBytes (b : List Byte) : Nat := b.foldl (fun acc x => acc * 256 + x.val) 0

/-- Big-endian bytes of `n`, `k` of them. -/
def bigEndianBytes : Nat → Nat → List Byte
  | 0, _ => []
  | k + 1, n => Fin.ofNat (n / 256 ^ k) :: bigEndianBytes k n

/-- Lower-case hex digit of a nibble. -/
def hexDigit (n : Nat) : Byte :=
  if n % 16 < 10 then Fin.ofNat (48 + n % 16) else Fin.ofNat (87 + n % 16)

/-- Go `hex.EncodeToString`. -/
def hexEncodeToString : List Byte → GoString
  | [] => []
  | b :: rest => hexDigit (b.val / 16) :: hexDigit (b.val % 16) :: hexEncodeToString rest

/-- Go `hex` reverse table: the value of a hex character. -/
def fromHexChar (c : Byte) : Option Nat :=
  if 48 ≤ c.val ∧ c.val ≤ 57 then some (c.val - 48)
  else if 97 ≤ c.val ∧ c.val ≤ 102 then some (c.val - 87)
  else if 65 ≤ c.val ∧ c.val ≤ 70 then some (c.val - 55)
  else none

/-- Go `hex.DecodeString`, the byte result only (the source drops the error):
the bytes decoded before the first invalid character or the odd tail. -/
def hexDecodeString : GoString → List Byte
  | p :: q :: rest =>
    match fromHexChar p, fromHexChar q with
    | some a, some b => Fin.ofNat (a * 16 + b) :: hexDecodeString rest
    | _, _ => []
  | _ => []

/-- Go `bytes.HasPrefix`. -/
def hasPrefix (s pre : List Byte) : Bool :=
  decide (pre.length ≤ s.length) && decide (s.take pre.length = pre)

/-- Go `string(i)` for an integer `i`: the UTF-8 encoding of the code point `i`,
and of U+FFFD when `i` is not a valid code point. -/
def runeString (i : Int) : GoString :=
  if i < 0 ∨ 0x10FFFF < i ∨ (0xD800 ≤ i ∧ i ≤ 0xDFFF) then [0xEF, 0xBF, 0xBD]
  else
    let n := i.toNat
    if n < 0x80 then [Fin.ofNat n]
    else if n < 0x800 then [Fin.ofNat (0xC0 + n / 64), Fin.ofNat (0x80 + n % 64)]
    else if n < 0x10000 then
      [Fin.ofNat (0xE0 + n / 4096), Fin.ofNat (0x80 + n / 64 % 64), Fin.ofNat (0x80 + n % 64)]
    else
      [Fin.ofNat (0xF0 + n / 262144), Fin.ofNat (0x80 + n / 4096 % 64),
        Fin.ofNat (0x80 + n / 64 % 64), Fin.ofNat (0x80 + n % 64)]

/-! ## Constants of the source -/

def TronSymbol : GoString := goString "trx"

def trc20TransferTopicLen : Nat := 3

def trc20TransferTopic : GoString :=
  goString "ddf252ad1be2c89b69c2b068fc378daa952ba7f163c4a11628f55a4df523b3ef"

def trc20TransferAddrLen : Nat := 32

def trc20TransferMethodSignature : GoString := goString "a9059cbb"

/-- Constant `address.TronBytePrefix` of the address package. -/
def TronBytePrefix : Byte := 0x41

/-- Constant `address.AddressLength` of the address package. -/
def AddressLength : Nat := 21

/-! ## Wire data -/

/-- Go `error` values: those the collaborators return and those `fmt.Errorf`
builds in `GetTxByHash` and `GetBalance` (kept by the data they are formatted
from). -/
inductive GoError where
  | external (msg : GoString)
  | unsupportTx (hash : GoString)
  | unsupportContractType (kind : Int) (hash : GoString)
  | moreThanOneDeposit (n : Nat) (hash : GoString)
  | symbolMismatch (symbol coin : GoString)
  deriving DecidableEq, Repr

/-- Message `google.protobuf.Any`. -/
structure Any where
  TypeUrl : GoString
  Value : List Byte
  deriving DecidableEq, Repr

structure TransferContract where
  OwnerAddress : List Byte
  ToAddress : List Byte
  Amount : Int
  deriving DecidableEq, Repr

structure TransferAssetContract where
  AssetName : List Byte
  OwnerAddress : List Byte
  ToAddress : List Byte
  Amount : Int
  deriving DecidableEq, Repr

structure TriggerSmartContract where
  OwnerAddress : List Byte
  ContractAddress : List Byte
  CallValue : Int
  Data : List Byte
  CallTokenValue : Int
  TokenId : Int
  deriving DecidableEq, Repr

/-- Values of `core.Transaction_Contract_ContractType` the source names. -/
def Transaction_Contract_TransferContract : Int := 1

def Transaction_Contract_TransferAssetContract : Int := 2

def Transaction_Contract_TriggerSmartContract : Int := 31

/-- Message `core.Transaction_Contract`: the kind tag and the typed payload. -/
structure Transaction_Contract where
  Type' : Int
  Parameter : Option Any
  deriving DecidableEq, Repr

/-- Go `txContract.GetParameter().GetValue()` (nil-safe getters). -/
def Transaction_Contract.parameterValue (c : Transaction_Contract) : List Byte :=
  match c.Parameter with
  | some a => a.Value
  | none => []

structure TransactionRaw where
  Contract : List Transaction_Contract
  deriving DecidableEq, Repr

structure Transaction where
  RawData : Option TransactionRaw
  deriving DecidableEq, Repr

structure TransactionInfo_Log where
  Address : List Byte
  Topics : List (List Byte)
  Data : List Byte
  deriving DecidableEq, Repr

/-- Values of `core.TransactionInfo_code`. -/
def TransactionInfo_SUCESS : Int := 0

def TransactionInfo_FAILED : Int := 1

structure TransactionInfo where
  Fee : Int
  BlockNumber : Int
  Result : Int
  Log : List TransactionInfo_Log
  deriving DecidableEq, Repr

/-- The packages the decoders call into: protobuf unwrapping of the three payload
types (`ptypes.UnmarshalAny`, `pb.Unmarshal`) and `address.Address(b).String()`. -/
structure Env where
  unmarshalAnyTransfer : Option Any → Except GoError TransferContract
  unmarshalAnyTransferAsset : Option Any → Except GoError TransferAssetContract
  unmarshalTrigger : List Byte → Except GoError TriggerSmartContract
  addressString : List Byte → GoString

/-! ## The decoders -/

structure depositInfo where
  tokenID : GoString
  fromAddr : GoString
  toAddr : GoString
  amount : GoString
  index : Nat
  contractAddr : GoString
  deriving DecidableEq, Repr

/-- The zero value `var d depositInfo`. -/
def depositInfo.zero : depositInfo :=
  { tokenID := [], fromAddr := [], toAddr := [], amount := [], index := 0, contractAddr := [] }

def decodeTransferContract (E : Env) (txContract : Transaction_Contract) (_txHash : GoString) :
    List depositInfo × Option GoError :=
  match E.unmarshalAnyTransfer txContract.Parameter with
  | .error err => ([], some err)
  | .ok tc =>
    let fromAddress := E.addressString tc.OwnerAddress
    let toAddress := E.addressString tc.ToAddress
    let tronDepositInfo := depositInfo.zero
    let tronDepositInfo := { tronDepositInfo with tokenID := TronSymbol }
    let tronDepositInfo := { tronDepositInfo with fromAddr := fromAddress }
    let tronDepositInfo := { tronDepositInfo with toAddr := toAddress }
    let tronDepositInfo := { tronDepositInfo with amount := bigIntString tc.Amount }
    let tronDepositInfo := { tronDepositInfo with contractAddr := [] }
    ([tronDepositInfo], none)

def decodeTransferAssetContract (E : Env) (txContract : Transaction_Contract)
    (_txHash : GoString) : List depositInfo × Option GoError :=
  let err : Option GoError := none
  match E.unmarshalAnyTransferAsset txContract.Parameter with
  | .error err => ([], some err)
  | .ok tc =>
    let fromAddress := E.addressString tc.OwnerAddress
    let toAddress := E.addressString tc.ToAddress
    let assetName : GoString := tc.AssetName
    let trc10DepositInfo := depositInfo.zero
    let trc10DepositInfo := { trc10DepositInfo with fromAddr := fromAddress }
    let trc10DepositInfo := { trc10DepositInfo with toAddr := toAddress }
    let trc10DepositInfo := { trc10DepositInfo with amount := bigIntString tc.Amount }
    let trc10DepositInfo := { trc10DepositInfo with contractAddr := assetName }
    ([trc10DepositInfo], err)

/-- The loop `for i, txLog := range txi.Log` of `decodeTriggerSmartContract`:
`i` is the position of the head of the remaining entries, `depositList` the
records appended so far. -/
def scanLogs (E : Env) (contractAddr : GoString) :
    Nat → List TransactionInfo_Log → List depositInfo → Run (List depositInfo)
  | _, [], depositList => .ok depositList
  | i, txLog :: rest, depositList =>
    if txLog.Topics.length ≠ trc20TransferTopicLen then
      scanLogs E contractAddr (i + 1) rest depositList
    else do
      let topic0 ← index txLog.Topics 0
      if hexEncodeToString topic0 = trc20TransferTopic then do
        let topic1 ← index txLog.Topics 1
        let badLen : Bool ←
          if topic1.length ≠ trc20TransferAddrLen then pure true
          else do
            let topic2 ← index txLog.Topics 2
            pure (decide (topic2.length ≠ trc20TransferAddrLen))
        if badLen then
          scanLogs E contractAddr (i + 1) rest depositList
        else do
          let topic1 ← index txLog.Topics 1
          let fromBytes ← sliceFrom topic1 12
          let topic2 ← index txLog.Topics 2
          let toBytes ← sliceFrom topic2 12
          let logAddrByte := [TronBytePrefix] ++ fromBytes
          let fromAddr := E.addressString logAddrByte
          let logAddrByte := [TronBytePrefix] ++ toBytes
          let toAddr := E.addressString logAddrByte
          let amount := setBytes txLog.Data
          let trc20DepositInfo := depositInfo.zero
          let trc20DepositInfo := { trc20DepositInfo with amount := natString amount }
          let trc20DepositInfo := { trc20DepositInfo with fromAddr := fromAddr }
          let trc20DepositInfo := { trc20DepositInfo with toAddr := toAddr }
          let trc20DepositInfo := { trc20DepositInfo with index := i }
          let trc20DepositInfo := { trc20DepositInfo with contractAddr := contractAddr }
          scanLogs E contractAddr (i + 1) rest (depositList ++ [trc20DepositInfo])
      else
        scanLogs E contractAddr (i + 1) rest depositList

def decodeTriggerSmartContract (E : Env) (txContract : Transaction_Contract)
    (txi : TransactionInfo) (_txHash : GoString) : Run (List depositInfo × Option GoError) :=
  match E.unmarshalTrigger txContract.parameterValue with
  | .error err => .ok ([], some err)
  | .ok tsc =>
    let trc20TransferMethodByte := hexDecodeString trc20TransferMethodSignature
    if ¬ hasPrefix tsc.Data trc20TransferMethodByte then .ok ([], none)
    else do
      let contractAddr := E.addressString tsc.ContractAddress
      let depositList ← scanLogs E contractAddr 0 txi.Log []
      .ok (depositList, none)

def decodeTriggerSmartContractLocal (E : Env) (txContract : Transaction_Contract)
    (_txHash : GoString) : Run (List depositInfo × Option GoError) :=
  match E.unmarshalTrigger txContract.parameterValue with
  | .error err => .ok ([], some err)
  | .ok tsc =>
    let trc20TransferMethodByte := hexDecodeString trc20TransferMethodSignature
    if ¬ hasPrefix tsc.Data trc20TransferMethodByte then .ok ([], none)
    else do
      let fromAddr := E.addressString tsc.OwnerAddress
      let contractAddr := E.addressString tsc.ContractAddress
      let start := trc20TransferMethodByte.length
      let end' := start + trc20TransferAddrLen
      let start := end' - AddressLength + 1
      let addressTron : List Byte := []
      let addressTron := addressTron ++ [TronBytePrefix]
      let argBytes ← slice tsc.Data start end'
      let addressTron := addressTron ++ argBytes
      let toAddr := E.addressString addressTron
      let amountBytes ← sliceFrom tsc.Data end'
      let amount := setBytes amountBytes
      let trc20DepositInfo := depositInfo.zero
      let trc20DepositInfo := { trc20DepositInfo with amount := natString amount }
      let trc20DepositInfo := { trc20DepositInfo with fromAddr := fromAddr }
      let trc20DepositInfo := { trc20DepositInfo with contractAddr := contractAddr }
      let trc20DepositInfo := { trc20DepositInfo with toAddr := toAddr }
      let trc20DepositInfo := { trc20DepositInfo with index := 0 }
      .ok ([trc20DepositInfo], none)

/-! ## `GetTxByHash` -/

/-- Values of `common.ReturnCode` the source names. -/
inductive ReturnCode where
  | ERROR
  | SUCCESS
  deriving DecidableEq, Repr

/-- Message `common.Error`. -/
structure CommonError where
  Code : ReturnCode
  Brief : GoString
  Detail : GoString
  CanRetry : Bool
  deriving DecidableEq, Repr

/-- Message `wallet2.TxMessage` (the fields the source sets). -/
structure TxMessage where
  Hash : GoString
  From : GoString
  To : GoString
  Fee : GoString
  Status : Bool
  Value : GoString
  Type' : Int
  Height : GoString
  ContractAddress : GoString
  deriving DecidableEq, Repr

structure TxHashResponse where
  Error : Option CommonError
  Tx : Option TxMessage
  deriving DecidableEq, Repr

structure TxHashRequest where
  Hash : GoString
  deriving DecidableEq, Repr

/-- String constants of package `config` used in the error classification. -/
structure Config where
  UnsupportedOperation : GoString
  UnsupportedChain : GoString
  deriving DecidableEq, Repr

/-- The RPC client capability `a.getClient().grpcClient`. -/
structure Client where
  GetTransactionByID : GoString → Except GoError Transaction
  GetTransactionInfoByID : GoString → Except GoError TransactionInfo

/-- The response literal every failing path of `GetTxByHash` returns. -/
def errorResponse (cfg : Config) : TxHashResponse :=
  { Error := some { Code := .ERROR, Brief := cfg.UnsupportedOperation,
                    Detail := cfg.UnsupportedChain, CanRetry := true },
    Tx := none }

/-- The literal `&common.Error{Code: common.ReturnCode_SUCCESS}`. -/
def successError : CommonError :=
  { Code := .SUCCESS, Brief := [], Detail := [], CanRetry := false }

/-- The part of `GetTxByHash` after the dispatch `switch` (lines 190-235). -/
def assemble (cfg : Config) (req : TxHashRequest) (txi : TransactionInfo)
    (depositList : List depositInfo) : Run (TxHashResponse × Option GoError) :=
  if depositList.length > 1 then
    .ok (errorResponse cfg, some (.moreThanOneDeposit depositList.length req.Hash))
  else
    let txStatus : Bool :=
      if txi.Result = TransactionInfo_SUCESS then true
      else if txi.Result = TransactionInfo_FAILED then false
      else false
    if depositList.length = 0 then do
      let d1 ← index depositList 0
      let d2 ← index depositList 0
      let d3 ← index depositList 0
      .ok ({ Error := some successError,
             Tx := some { Hash := req.Hash, From := d1.fromAddr, To := d2.toAddr,
                          Fee := bigIntString txi.Fee, Status := txStatus, Value := d3.amount,
                          Type' := 0, Height := runeString txi.BlockNumber,
                          ContractAddress := [] } }, none)
    else do
      let d1 ← index depositList 0
      let d2 ← index depositList 0
      let d3 ← index depositList 0
      let d4 ← index depositList 0
      .ok ({ Error := some successError,
             Tx := some { Hash := req.Hash, From := d1.fromAddr, To := d2.toAddr,
                          Fee := bigIntString txi.Fee, Status := txStatus, Value := d3.amount,
                          Type' := 0, Height := runeString txi.BlockNumber,
                          ContractAddress := d4.contractAddr } }, none)

/-- One `case` of the dispatch: a decoder error returns the error response,
otherwise the function goes on after the `switch`. -/
def afterDecode (cfg : Config) (req : TxHashRequest) (txi : TransactionInfo)
    (decoded : List depositInfo × Option GoError) : Run (TxHashResponse × Option GoError) :=
  match decoded.2 with
  | some err => .ok (errorResponse cfg, some err)
  | none => assemble cfg req txi decoded.1

def GetTxByHash (E : Env) (cfg : Config) (grpcClient : Client) (req : TxHashRequest) :
    Run (TxHashResponse × Option GoError) :=
  match grpcClient.GetTransactionByID req.Hash with
  | .error err => .ok (errorResponse cfg, some err)
  | .ok tx =>
    match tx.RawData with
    | none => .error .nilDereference
    | some rawData =>
      let r := rawData.Contract
      if r.length ≠ 1 then .ok (errorResponse cfg, some (.unsupportTx req.Hash))
      else
        match grpcClient.GetTransactionInfoByID req.Hash with
        | .error err => .ok (errorResponse cfg, some err)
        | .ok txi => do
          let r0 ← index r 0
          if r0.Type' = Transaction_Contract_TransferContract then
            afterDecode cfg req txi (decodeTransferContract E r0 req.Hash)
          else if r0.Type' = Transaction_Contract_TransferAssetContract then
            afterDecode cfg req txi (decodeTransferAssetContract E r0 req.Hash)
          else if r0.Type' = Transaction_Contract_TriggerSmartContract then do
            let decoded ← decodeTriggerSmartContract E r0 txi req.Hash
            afterDecode cfg req txi decoded
          else
            .ok (errorResponse cfg, some (.unsupportContractType r0.Type' req.Hash))

/-! ## A concrete environment

The behaviour of the packages behind `Env`, written out: the SDK's address text
form (base-58 with a double SHA-256 checksum) and the protobuf wire format of the
three payload messages. -/

/-- Rotate a 32-bit word right. -/
def rotr32 (x n : Nat) : Nat := (x >>> n ||| x <<< (32 - n)) % 2 ^ 32

/-- The largest `r` below `2 ^ bits` with `r ^ k ≤ n`, built bit by bit on top of `r`. -/
def floorRoot (k n : Nat) : Nat → Nat → Nat
  | 0, r => r
  | bits + 1, r => if (r + 2 ^ bits) ^ k ≤ n then floorRoot k n bits (r + 2 ^ bits)
                   else floorRoot k n bits r

/-- The primes below `n`, in increasing order. -/
def primesBelow (n : Nat) : List Nat :=
  (List.range n).filter
    (fun p => decide (2 ≤ p) && (List.range p).all (fun d => d < 2 || p % d != 0))

/-- The round constants: the first 32 fractional bits of the cube roots of the
first 64 primes. -/
def sha256K : List Nat :=
  (primesBelow 312).map (fun p => floorRoot 3 (p * 2 ^ 96) 36 0 % 2 ^ 32)

/-- The initial state: the first 32 fractional bits of the square roots of the
first 8 primes. -/
def sha256Init : List Nat :=
  (primesBelow 20).map (fun p => floorRoot 2 (p * 2 ^ 64) 36 0 % 2 ^ 32)

/-- The message followed by the SHA-256 padding. -/
def sha256Pad (msg : List Byte) : List Byte :=
  let zeros := (119 - msg.length % 64) % 64
  msg ++ [0x80] ++ List.replicate zeros 0 ++ bigEndianBytes 8 (msg.length * 8)

/-- Extend the message schedule by `k` words (`w` holds the words so far, latest first). -/
def sha256Schedule : Nat → List Nat → List Nat
  | 0, w => w
  | k + 1, w =>
    let w2 := w.getD 1 0
    let w7 := w.getD 6 0
    let w15 := w.getD 14 0
    let w16 := w.getD 15 0
    let s0 := rotr32 w15 7 ^^^ rotr32 w15 18 ^^^ (w15 >>> 3)
    let s1 := rotr32 w2 17 ^^^ rotr32 w2 19 ^^^ (w2 >>> 10)
    sha256Schedule k (((w16 + s0 + w7 + s1) % 2 ^ 32) :: w)

/-- One round of the compression function on the state `[a, b, c, d, e, f, g, h]`. -/
def sha256Round (st : List Nat) (kw : Nat × Nat) : List Nat :=
  match st with
  | [a, b, c, d, e, f, g, h] =>
    let s1 := rotr32 e 6 ^^^ rotr32 e 11 ^^^ rotr32 e 25
    let ch := (e &&& f) ^^^ ((2 ^ 32 - 1 - e) &&& g)
    let t1 := (h + s1 + ch + kw.1 + kw.2) % 2 ^ 32
    let s0 := rotr32 a 2 ^^^ rotr32 a 13 ^^^ rotr32 a 22
    let maj := (a &&& b) ^^^ (a &&& c) ^^^ (b &&& c)
    let t2 := (s0 + maj) % 2 ^ 32
    [(t1 + t2) % 2 ^ 32, a, b, c, (d + t1) % 2 ^ 32, e, f, g]
  | _ => st

/-- The 16 big-endian words of a 64-byte block. -/
def sha256Words : Nat → List Byte → List Nat
  | 0, _ => []
  | k + 1, bs => setBytes (bs.take 4) :: sha256Words k (bs.drop 4)

/-- Absorb the padded message block by block. -/
def sha256Blocks : Nat → List Byte → List Nat → List Nat
  | 0, _, st => st
  | k + 1, bs, st =>
    let w := (sha256Schedule 48 (sha256Words 16 (bs.take 64)).reverse).reverse
    let st' := (sha256K.zip w).foldl sha256Round st
    sha256Blocks k (bs.drop 64) (List.zipWith (fun x y => (x + y) % 2 ^ 32) st st')

/-- SHA-256 digest. -/
def sha256 (msg : List Byte) : List Byte :=
  let padded := sha256Pad msg
  (sha256Blocks (padded.length / 64) padded sha256Init).flatMap (bigEndianBytes 4)

def base58Alphabet : GoString :=
  goString "123456789ABCDEFGHJKLMNPQRSTUVWXYZabcdefghijkmnopqrstuvwxyz"

/-- Base-58 digits of `n`, most significant first, in front of `acc` (none for 0). -/
def base58Core : Nat → Nat → GoString → GoString
  | 0, _, acc => acc
  | fuel + 1, n, acc =>
    if n = 0 then acc
    else base58Core fuel (n / 58) (base58Alphabet.getD (n % 58) 0 :: acc)

/-- Base-58 text of a byte string: one `1` per leading zero byte, then the digits
of its big-endian value. -/
def base58Encode (input : List Byte) : GoString :=
  List.replicate (input.takeWhile (fun b => b = 0)).length (0x31 : Byte)
    ++ base58Core (setBytes input + 1) (setBytes input) []

/-- Function `common.EncodeCheck` of the SDK: base-58 of the input followed by the
first four bytes of its double SHA-256. -/
def encodeCheck (input : List Byte) : GoString :=
  base58Encode (input ++ (sha256 (sha256 input)).take 4)

/-- Method `address.Address.String` of the SDK. On the empty address the later
releases of the SDK return the empty text, as written here, and the earlier ones
fault; no theorem below depends on the value at the empty address. -/
def addressString (a : List Byte) : GoString :=
  match a with
  | [] => []
  | b :: _ => if b = 0 then natString (setBytes a) else encodeCheck a

/-- The value of one field on the wire. -/
inductive WireValue where
  | varint (v : Nat)
  | fixed (b : List Byte)
  | bytes (b : List Byte)
  | group
  deriving DecidableEq, Repr

/-- Little-endian base-128 digits of a varint, at most `k` bytes. -/
def consumeVarintCore : Nat → List Byte → Option (Nat × List Byte)
  | 0, _ => none
  | _ + 1, [] => none
  | k + 1, b :: rest =>
    if b.val < 128 then some (b.val, rest)
    else
      match consumeVarintCore k rest with
      | some (v, r) => some (b.val % 128 + 128 * v, r)
      | none => none

/-- A varint of at most ten bytes that fits 64 bits. -/
def consumeVarint (bs : List Byte) : Option (Nat × List Byte) :=
  match consumeVarintCore 10 bs with
  | some (v, r) => if v < 2 ^ 64 then some (v, r) else none
  | none => none

/-- A field tag: field number (1 .. 2^29 - 1) and wire type. -/
def consumeTag (bs : List Byte) : Option ((Nat × Nat) × List Byte) :=
  match consumeVarint bs with
  | some (t, r) => if 1 ≤ t / 8 ∧ t / 8 < 2 ^ 29 then some ((t / 8, t % 8), r) else none
  | none => none

mutual
/-- The value of a field of wire type `wtyp`, and the bytes after it. -/
def consumeFieldValue : Nat → Nat → Nat → List Byte → Option (WireValue × List Byte)
  | 0, _, _, _ => none
  | fuel + 1, num, wtyp, bs =>
    if wtyp = 0 then
      match consumeVarint bs with
      | some (v, r) => some (.varint v, r)
      | none => none
    else if wtyp = 1 then
      if 8 ≤ bs.length then some (.fixed (bs.take 8), bs.drop 8) else none
    else if wtyp = 5 then
      if 4 ≤ bs.length then some (.fixed (bs.take 4), bs.drop 4) else none
    else if wtyp = 2 then
      match consumeVarint bs with
      | some (m, r) => if m ≤ r.length then some (.bytes (r.take m), r.drop m) else none
      | none => none
    else if wtyp = 3 then
      match consumeGroup fuel num bs with
      | some r => some (.group, r)
      | none => none
    else none
/-- The fields of a group up to its end marker. -/
def consumeGroup : Nat → Nat → List Byte → Option (List Byte)
  | 0, _, _ => none
  | fuel + 1, num, bs =>
    match consumeTag bs with
    | some ((n, w), r) =>
      if w = 4 then (if n = num then some r else none)
      else
        match consumeFieldValue fuel n w r with
        | some (_, r') => consumeGroup fuel num r'
        | none => none
    | none => none
end

/-- All fields of a message, in wire order. -/
def consumeFields : Nat → List Byte → Option (List (Nat × WireValue))
  | 0, _ => none
  | _ + 1, [] => some []
  | fuel + 1, b :: bs =>
    match consumeTag (b :: bs) with
    | some ((n, w), r) =>
      match consumeFieldValue (2 * (b :: bs).length + 2) n w r with
      | some (v, r') =>
        match consumeFields fuel r' with
        | some fs => some ((n, v) :: fs)
        | none => none
      | none => none
    | none => none

/-- The fields of a serialized message. -/
def parseMessage (bs : List Byte) : Option (List (Nat × WireValue)) :=
  consumeFields (bs.length + 1) bs

/-- A `bytes` field: the last occurrence with the length-delimited wire type. -/
def bytesField (fs : List (Nat × WireValue)) (num : Nat) : List Byte :=
  fs.foldl (fun acc f => match f with
    | (n, .bytes b) => if n = num then b else acc
    | _ => acc) []

/-- An `int64` field: the last varint occurrence, read as two's complement. -/
def int64Field (fs : List (Nat × WireValue)) (num : Nat) : Int :=
  fs.foldl (fun acc f => match f with
    | (n, .varint v) => if n = num then (if v < 2 ^ 63 then (v : Int) else (v : Int) - 2 ^ 64) else acc
    | _ => acc) 0

def decodeError : GoError := .external (goString "proto: cannot parse invalid wire-format data")

def unmarshalTransferContract (bs : List Byte) : Except GoError TransferContract :=
  match parseMessage bs with
  | none => .error decodeError
  | some fs => .ok { OwnerAddress := bytesField fs 1, ToAddress := bytesField fs 2,
                     Amount := int64Field fs 3 }

def unmarshalTransferAssetContract (bs : List Byte) : Except GoError TransferAssetContract :=
  match parseMessage bs with
  | none => .error decodeError
  | some fs => .ok { AssetName := bytesField fs 1, OwnerAddress := bytesField fs 2,
                     ToAddress := bytesField fs 3, Amount := int64Field fs 4 }

def unmarshalTriggerSmartContract (bs : List Byte) : Except GoError TriggerSmartContract :=
  match parseMessage bs with
  | none => .error decodeError
  | some fs => .ok { OwnerAddress := bytesField fs 1, ContractAddress := bytesField fs 2,
                     CallValue := int64Field fs 3, Data := bytesField fs 4,
                     CallTokenValue := int64Field fs 5, TokenId := int64Field fs 6 }

/-- The message name of a type URL: what follows its last `/`. -/
def messageName (url : GoString) : GoString :=
  (url.reverse.takeWhile (fun b => b ≠ 0x2F)).reverse

/-- Function `ptypes.UnmarshalAny`: the type URL must name the target message (the
text of the two error messages is abridged). -/
def unmarshalAny {α : Type} (name : GoString) (parse : List Byte → Except GoError α)
    (any : Option Any) : Except GoError α :=
  match any with
  | none => .error (.external (goString "message is nil"))
  | some a =>
    if messageName a.TypeUrl ≠ name then .error (.external (goString "mismatched message type"))
    else parse a.Value

/-- The environment of the deployed adaptor. -/
def gotron : Env where
  unmarshalAnyTransfer :=
    unmarshalAny (goString "protocol.TransferContract") unmarshalTransferContract
  unmarshalAnyTransferAsset :=
    unmarshalAny (goString "protocol.TransferAssetContract") unmarshalTransferAssetContract
  unmarshalTrigger := unmarshalTriggerSmartContract
  addressString := addressString

/-! ## `GetBalance` and `SendTx`

Both functions call the RPC client and `GetBalance` writes to the balance cache.
The calls made and the cache writes are returned next to the Go result, in the
order they happen, as a list of `Call`. -/

/-- Message `core.Account` (the fields the source reads); the map `AssetV2` is
kept as the list of its entries. -/
structure Account where
  Balance : Int
  AssetV2 : List (GoString × Int)
  deriving DecidableEq, Repr

structure BalanceRequest where
  Chain : GoString
  Coin : GoString
  Address : GoString
  ContractAddress : GoString
  deriving DecidableEq, Repr

structure BalanceResponse where
  Error : Option CommonError
  Balance : GoString
  deriving DecidableEq, Repr

structure SendTxRequest where
  RawTx : GoString
  deriving DecidableEq, Repr

structure SendTxResponse where
  Error : Option CommonError
  TxHash : GoString
  deriving DecidableEq, Repr

/-- The RPC client with the methods `GetBalance` and `SendTx` call. -/
structure WalletClient extends Client where
  GetAccount : GoString → Except GoError Account
  TRC20GetSymbol : GoString → Except GoError GoString
  TRC20ContractBalance : GoString → GoString → Except GoError Int
  Broadcast : Transaction → Option GoError

/-- One call to the RPC client, or one write to the balance cache. -/
inductive Call where
  | TRC20GetSymbol (contractAddress : GoString)
  | TRC20ContractBalance (address contractAddress : GoString)
  | GetAccount (address : GoString)
  | cacheAdd (key : GoString) (value : Int)
  | Broadcast (tx : Transaction)
  deriving DecidableEq, Repr

/-- The response literal every failing path of `GetBalance` returns. -/
def balanceErrorResponse (cfg : Config) : BalanceResponse :=
  { Error := some { Code := .ERROR, Brief := cfg.UnsupportedOperation,
                    Detail := cfg.UnsupportedChain, CanRetry := true },
    Balance := [] }

/-- Method `WalletAdaptor.GetBalance`. Logging and the fetch of the cache handle
(`cache.GetBalanceCache()`) are not part of the call list; the write
`balanceCache.Add(key, result)` is. -/
def GetBalance (cfg : Config) (grpcClient : WalletClient) (req : BalanceRequest) :
    (BalanceResponse × Option GoError) × List Call :=
  let key := req.Chain ++ goString ":" ++ req.Coin ++ goString ":" ++ req.Address
  if req.ContractAddress ≠ [] then
    match grpcClient.TRC20GetSymbol req.ContractAddress with
    | .error err =>
      ((balanceErrorResponse cfg, some err), [.TRC20GetSymbol req.ContractAddress])
    | .ok symbol =>
      if symbol ≠ req.Chain then
        ((balanceErrorResponse cfg, some (.symbolMismatch symbol req.Coin)),
          [.TRC20GetSymbol req.ContractAddress])
      else
        match grpcClient.TRC20ContractBalance req.Address req.ContractAddress with
        | .error err =>
          ((balanceErrorResponse cfg, some err),
            [.TRC20GetSymbol req.ContractAddress,
             .TRC20ContractBalance req.Address req.ContractAddress])
        | .ok result =>
          (({ Error := some successError, Balance := bigIntString result }, none),
            [.TRC20GetSymbol req.ContractAddress,
             .TRC20ContractBalance req.Address req.ContractAddress,
             .cacheAdd key result])
  else
    match grpcClient.GetAccount req.Address with
    | .error err => ((balanceErrorResponse cfg, some err), [.GetAccount req.Address])
    | .ok acc =>
      let result : Int :=
        if req.Coin = TronSymbol then acc.Balance
        else
          match acc.AssetV2.lookup req.Coin with
          | none => 0
          | some r => r
      (({ Error := some successError, Balance := bigIntString result }, none),
        [.GetAccount req.Address, .cacheAdd key result])

/-- The protobuf functions `SendTx` calls: `pb.Unmarshal` into a transaction and
`pb.Marshal` of its raw-data section (the byte result only). -/
structure TxCodec where
  unmarshalTransaction : List Byte → Except GoError Transaction
  marshalRawData : Option TransactionRaw → List Byte

def getHash (bz : List Byte) : List Byte := sha256 bz

/-- Method `WalletAdaptor.SendTx`. The error of `pb.Marshal` is dropped, as in the
source, where the next assignment overwrites it. -/
def SendTx (P : TxCodec) (grpcClient : WalletClient) (req : SendTxRequest) :
    (SendTxResponse × Option GoError) × List Call :=
  match P.unmarshalTransaction req.RawTx with
  | .error _ =>
    (({ Error := some { Code := .ERROR, Brief := [], Detail := [], CanRetry := false },
        TxHash := [] }, none), [])
  | .ok tx =>
    let rawData := P.marshalRawData tx.RawData
    let hash := getHash rawData
    match grpcClient.Broadcast tx with
    | some err =>
      (({ Error := some { Code := .ERROR, Brief := [], Detail := [], CanRetry := false },
          TxHash := [] }, some err), [.Broadcast tx])
    | none =>
      (({ Error := some successError, TxHash := hexEncodeToString hash }, none),
        [.Broadcast tx])

/-! ### The wire format of a transaction

Restricted to what the model of `Transaction` keeps: the raw-data section and its
contract instructions. Text fields are taken as they are. -/

/-- All length-delimited occurrences of field `num`, in wire order. -/
def bytesFields (fs : List (Nat × WireValue)) (num : Nat) : List (List Byte) :=
  fs.filterMap (fun f => match f with
    | (n, .bytes b) => if n = num then some b else none
    | _ => none)

/-- An embedded message field: absent without an occurrence, otherwise the merge
of its occurrences, which is the message their concatenation encodes. -/
def messageField (fs : List (Nat × WireValue)) (num : Nat) : Option (List Byte) :=
  match bytesFields fs num with
  | [] => none
  | bss => some bss.flatten

/-- An enum field: the last varint occurrence, truncated to 32 bits and read as
two's complement. -/
def enumField (fs : List (Nat × WireValue)) (num : Nat) : Int :=
  fs.foldl (fun acc f => match f with
    | (n, .varint v) =>
      if n = num then (if v % 2 ^ 32 < 2 ^ 31 then ((v % 2 ^ 32 : Nat) : Int)
        else ((v % 2 ^ 32 : Nat) : Int) - 2 ^ 32) else acc
    | _ => acc) 0

def unmarshalAnyMessage (bs : List Byte) : Option Any :=
  match parseMessage bs with
  | none => none
  | some fs => some { TypeUrl := bytesField fs 1, Value := bytesField fs 2 }

def unmarshalContract (bs : List Byte) : Option Transaction_Contract :=
  match parseMessage bs with
  | none => none
  | some fs =>
    match messageField fs 2 with
    | none => some { Type' := enumField fs 1, Parameter := none }
    | some anyBytes =>
      match unmarshalAnyMessage anyBytes with
      | none => none
      | some a => some { Type' := enumField fs 1, Parameter := some a }

def unmarshalRawData (bs : List Byte) : Option TransactionRaw :=
  match parseMessage bs with
  | none => none
  | some fs =>
    match (bytesFields fs 11).mapM unmarshalContract with
    | none => none
    | some cs => some { Contract := cs }

/-- The fields kept from a serialized transaction. Only the wire format of the
transaction, of its raw data, of the contract instructions and of their payload
envelope is checked; the other fields are skipped unread. -/
def unmarshalTransaction (bs : List Byte) : Except GoError Transaction :=
  match parseMessage bs with
  | none => .error decodeError
  | some fs =>
    match messageField fs 1 with
    | none => .ok { RawData := none }
    | some rawBytes =>
      match unmarshalRawData rawBytes with
      | none => .error decodeError
      | some rawData => .ok { RawData := some rawData }

/-- A varint, least significant group first. -/
def putVarint : Nat → Nat → List Byte
  | 0, _ => []
  | fuel + 1, n =>
    if n < 128 then [Fin.ofNat n] else Fin.ofNat (128 + n % 128) :: putVarint fuel (n / 128)

/-- A length-delimited field. -/
def putBytesField (num : Nat) (b : List Byte) : List Byte :=
  putVarint 10 (num * 8 + 2) ++ putVarint 10 b.length ++ b

def marshalAnyMessage (a : Any) : List Byte :=
  (if a.TypeUrl = [] then [] else putBytesField 1 a.TypeUrl)
    ++ (if a.Value = [] then [] else putBytesField 2 a.Value)

def marshalContract (c : Transaction_Contract) : List Byte :=
  (if c.Type' = 0 then [] else putVarint 10 8 ++ putVarint 10 (c.Type' % 2 ^ 64).toNat)
    ++ (match c.Parameter with
        | none => []
        | some a => putBytesField 2 (marshalAnyMessage a))

/-- The serialization of the part of the raw data the model keeps, the contract
instructions; the other fields of a real raw-data section are not in it. -/
def marshalRawData (rawData : Option TransactionRaw) : List Byte :=
  match rawData with
  | none => []
  | some r => r.Contract.flatMap (fun c => putBytesField 11 (marshalContract c))

/-- The transaction codec of the deployed adaptor. -/
def gotronTx : TxCodec where
  unmarshalTransaction := unmarshalTransaction
  marshalRawData := marshalRawData

/-! ## Specification-side definitions

Written from the wording of the specification, to be compared with the decoders. -/

/-- The 4-byte selector of the fungible-transfer method, `a9 05 9c bb`. -/
def transferSelector : List Byte := [0xa9, 0x05, 0x9c, 0xbb]

/-- The 32-byte fungible-transfer event signature `dd f2 52 ad .. 23 b3 ef`. -/
def transferSignature : List Byte :=
  bigEndianBytes 32 0xddf252ad1be2c89b69c2b068fc378daa952ba7f163c4a11628f55a4df523b3ef

/-- A log entry is a fungible transfer: exactly 3 topics, the first the event
signature, the second and third 32 bytes long. -/
def isTransferLog (l : TransactionInfo_Log) : Bool :=
  match l.Topics with
  | [t0, t1, t2] => decide (t0 = transferSignature ∧ t1.length = 32 ∧ t2.length = 32)
  | _ => false

/-- The record of the transfer log `l` at position `i`: addresses from the low 20
bytes of topics 1 and 2 behind the network prefix, amount from the data. -/
def logRecord (E : Env) (contractAddr : GoString) (i : Nat) (l : TransactionInfo_Log) :
    depositInfo :=
  { tokenID := []
    fromAddr := E.addressString ((0x41 : Byte) :: (l.Topics.getD 1 []).drop 12)
    toAddr := E.addressString ((0x41 : Byte) :: (l.Topics.getD 2 []).drop 12)
    amount := natString (setBytes l.Data)
    index := i
    contractAddr := contractAddr }

/-- The records of the transfer logs among `logs`, in log order, each with its
position counted from `i`. -/
def transferRecords (E : Env) (contractAddr : GoString) (i : Nat)
    (logs : List TransactionInfo_Log) : List depositInfo :=
  ((logs.enumFrom i).filter (fun p => isTransferLog p.2)).map
    (fun p => logRecord E contractAddr p.1 p.2)

/-- The value of a run of decimal digit bytes. -/
def decimalValue (s : GoString) : Nat := s.foldl (fun acc b => acc * 10 + (b.val - 48)) 0

/-- A non-empty run of ASCII digits. -/
def IsDigits (s : GoString) : Prop := s ≠ [] ∧ ∀ b ∈ s, 48 ≤ b.val ∧ b.val ≤ 57

/-- Text `s` is the base-10 rendering of the natural number `n`, without sign. -/
def IsDecimalOf (s : GoString) (n : Nat) : Prop := IsDigits s ∧ decimalValue s = n

/-- Text `s` is the base-10 rendering of the integer `z`: its digits, behind a
`-` sign when `z` is negative. -/
def IsSignedDecimalOf (s : GoString) (z : Int) : Prop :=
  (0 ≤ z → IsDecimalOf s z.natAbs) ∧
  (z < 0 → ∃ t : GoString, s = (45 : Byte) :: t ∧ IsDecimalOf t z.natAbs)

/-- All of `fromAddr`, `toAddr` and `amount` are non-empty. -/
def Populated (d : depositInfo) : Prop := d.fromAddr ≠ [] ∧ d.toAddr ≠ [] ∧ d.amount ≠ []

/-- The single contract instruction `c` is of a supported kind and its decoder
returns the records `ds` and no error (the dispatch of `GetTxByHash`). -/
def DecodesTo (E : Env) (c : Transaction_Contract) (txi : TransactionInfo) (hash : GoString)
    (ds : List depositInfo) : Prop :=
  (c.Type' = Transaction_Contract_TransferContract ∧
      decodeTransferContract E c hash = (ds, none)) ∨
  (c.Type' = Transaction_Contract_TransferAssetContract ∧
      decodeTransferAssetContract E c hash = (ds, none)) ∨
  (c.Type' = Transaction_Contract_TriggerSmartContract ∧
      decodeTriggerSmartContract E c txi hash = .ok (ds, none))

/-- The transaction and its receipt are fetched without error and the transaction
carries the single contract instruction `c`. -/
def Fetched (grpcClient : Client) (req : TxHashRequest) (c : Transaction_Contract)
    (txi : TransactionInfo) : Prop :=
  grpcClient.GetTransactionByID req.Hash = .ok { RawData := some { Contract := [c] } } ∧
  grpcClient.GetTransactionInfoByID req.Hash = .ok txi

/-! ## Sample data -/

def sampleOwner : List Byte := 0x41 :: List.replicate 20 0x11

def sampleRecipient : List Byte := 0x41 :: List.replicate 20 0x22

/-- Raw address of a token contract (prefix byte and 20-byte body). -/
def sampleToken : List Byte :=
  [0x41, 0xa6, 0x14, 0xf8, 0x03, 0xb6, 0xfd, 0x78, 0x09, 0x86, 0xa4, 0x2c, 0x78, 0xec, 0x9c,
   0x7f, 0x77, 0xe6, 0xde, 0xd1, 0x3c]

/-- Call data of `transfer(recipient, 5)`: selector and two 32-byte arguments. -/
def sampleCallData : List Byte :=
  transferSelector ++ List.replicate 12 0 ++ List.replicate 20 0x22 ++ List.replicate 31 0 ++ [5]

def sampleTrigger : TriggerSmartContract :=
  { OwnerAddress := sampleOwner, ContractAddress := sampleToken, CallValue := 0,
    Data := sampleCallData, CallTokenValue := 0, TokenId := 0 }

/-- A serialized `TriggerSmartContract` (fields 1, 2 and 4). -/
def sampleTriggerContract : Transaction_Contract :=
  { Type' := Transaction_Contract_TriggerSmartContract
    Parameter := some
      { TypeUrl := goString "type.googleapis.com/protocol.TriggerSmartContract"
        Value := [0x0a, 21] ++ sampleOwner ++ [0x12, 21] ++ sampleToken ++ [0x22, 68]
          ++ sampleCallData } }

/-- A trigger calling `approve` (selector `09 5e a7 b3`), not a transfer. -/
def sampleApproveContract : Transaction_Contract :=
  { Type' := Transaction_Contract_TriggerSmartContract
    Parameter := some
      { TypeUrl := goString "type.googleapis.com/protocol.TriggerSmartContract"
        Value := [0x22, 4, 0x09, 0x5e, 0xa7, 0xb3] } }

def sampleTransferLog : TransactionInfo_Log :=
  { Address := sampleToken.drop 1
    Topics := [transferSignature, List.replicate 12 0 ++ List.replicate 20 0x11,
      List.replicate 12 0 ++ List.replicate 20 0x22]
    Data := List.replicate 31 0 ++ [5] }

/-- A log entry with two topics only. -/
def sampleOtherLog : TransactionInfo_Log :=
  { Address := sampleToken.drop 1
    Topics := [transferSignature, List.replicate 12 0 ++ List.replicate 20 0x11]
    Data := [] }

def sampleReceipt (logs : List TransactionInfo_Log) : TransactionInfo :=
  { Fee := 345000, BlockNumber := 65, Result := TransactionInfo_SUCESS, Log := logs }

def sampleTransfer (amount : Int) : TransferContract :=
  { OwnerAddress := sampleOwner, ToAddress := sampleRecipient, Amount := amount }

/-- A serialized native transfer of 300. -/
def sampleTransferContract : Transaction_Contract :=
  { Type' := Transaction_Contract_TransferContract
    Parameter := some
      { TypeUrl := goString "type.googleapis.com/protocol.TransferContract"
        Value := [0x0a, 21] ++ sampleOwner ++ [0x12, 21] ++ sampleRecipient
          ++ [0x18, 0xac, 0x02] } }

/-- A payload whose type URL names another message. -/
def sampleMistypedContract : Transaction_Contract :=
  { Type' := Transaction_Contract_TransferContract
    Parameter := some
      { TypeUrl := goString "type.googleapis.com/protocol.VoteWitnessContract", Value := [] } }

def sampleTransferAsset : TransferAssetContract :=
  { AssetName := goString "abc", OwnerAddress := sampleOwner, ToAddress := sampleRecipient,
    Amount := 7 }

/-- A serialized legacy asset transfer of 7 units of the asset `abc`. -/
def sampleTransferAssetContract : Transaction_Contract :=
  { Type' := Transaction_Contract_TransferAssetContract
    Parameter := some
      { TypeUrl := goString "type.googleapis.com/protocol.TransferAssetContract"
        Value := [0x0a, 3, 0x61, 0x62, 0x63] ++ [0x12, 21] ++ sampleOwner ++ [0x1a, 21]
          ++ sampleRecipient ++ [0x20, 7] } }

/-- A client that answers every hash with the transaction made of the single
contract instruction `c` and with the receipt `txi`. -/
def sampleClient (c : Transaction_Contract) (txi : TransactionInfo) : Client :=
  { GetTransactionByID := fun _ => .ok { RawData := some { Contract := [c] } }
    GetTransactionInfoByID := fun _ => .ok txi }

def sampleConfig : Config :=
  { UnsupportedOperation := goString "Unsupport operation"
    UnsupportedChain := goString "Unsupport chain" }

def sampleRequest : TxHashRequest := { Hash := goString "c0ffee" }

/-- A trigger whose invocation data is the transfer selector and nothing else. -/
def sampleSelectorOnlyContract : Transaction_Contract :=
  { Type' := Transaction_Contract_TriggerSmartContract
    Parameter := some
      { TypeUrl := goString "type.googleapis.com/protocol.TriggerSmartContract"
        Value := [0x22, 4] ++ transferSelector } }

/-- A trigger with no field set: empty invocation data. -/
def sampleEmptyTriggerContract : Transaction_Contract :=
  { Type' := Transaction_Contract_TriggerSmartContract
    Parameter := some
      { TypeUrl := goString "type.googleapis.com/protocol.TriggerSmartContract"
        Value := [] } }

/-- A contract instruction of a kind the adaptor does not decode (a witness vote). -/
def sampleVoteContract : Transaction_Contract :=
  { Type' := 4
    Parameter := some
      { TypeUrl := goString "type.googleapis.com/protocol.VoteWitnessContract", Value := [] } }

/-- A wallet client: an account with 1000000 of the native coin and 12 units of
the legacy asset `1002000`, a token contract of symbol `USDT`. -/
def sampleWalletClient : WalletClient :=
  { toClient := sampleClient sampleTransferContract (sampleReceipt [])
    GetAccount := fun _ =>
      .ok { Balance := 1000000, AssetV2 := [(goString "1002000", 12)] }
    TRC20GetSymbol := fun _ => .ok (goString "USDT")
    TRC20ContractBalance := fun _ _ => .ok 42
    Broadcast := fun _ => none }

/-- A balance request for the coin `coin` at the sample owner's address. -/
def sampleBalanceRequest (coin contractAddress : GoString) : BalanceRequest :=
  { Chain := goString "trx", Coin := coin
    Address := goString "TBia4uHnb3oSSZm5isP284cA7Np1v15Vhi"
    ContractAddress := contractAddress }

/-- A serialized transaction: one native transfer instruction in its raw data
(raw data is field 1 of the transaction). -/
def sampleRawTx : List Byte :=
  putBytesField 1 (marshalRawData (some { Contract := [sampleTransferContract] }))

/-- The sample transaction cut short: its length prefix announces more bytes than
follow. -/
def sampleTruncatedRawTx : List Byte := sampleRawTx.take 40

/-- The sample trigger with the target contract address given as its bare 20-byte
body, without the prefix byte. -/
def sampleBareTokenTrigger : TriggerSmartContract :=
  { sampleTrigger with ContractAddress := sampleToken.drop 1 }

def sampleBareTokenContract : Transaction_Contract :=
  { Type' := Transaction_Contract_TriggerSmartContract
    Parameter := some
      { TypeUrl := goString "type.googleapis.com/protocol.TriggerSmartContract"
        Value := [0x0a, 21] ++ sampleOwner ++ [0x12, 20] ++ sampleToken.drop 1 ++ [0x22, 68]
          ++ sampleCallData } }

/-- The environment `gotron` with an encoder that returns the raw address it is
given: the address fields of a record then show what was passed to the encoder. -/
def echoEnv : Env := { gotron with addressString := fun a => a }

/-! ## Basic facts about the library functions -/

theorem hexDecodeString_selector :
    hexDecodeString trc20TransferMethodSignature = transferSelector := by decide

theorem hasPrefix_iff (s pre : List Byte) : hasPrefix s pre = true ↔ pre <+: s := by
  unfold hasPrefix
  simp only [Bool.and_eq_true, decide_eq_true_eq]
  constructor
  · rintro ⟨_, h⟩
    exact h ▸ List.take_prefix _ _
  · rintro ⟨t, rfl⟩
    simp

theorem fromHexChar_hexDigit (n : Fin 16) : fromHexChar (hexDigit n.val) = some n.val := by
  revert n; decide

theorem hexEncodeToString_injective :
    ∀ a b : List Byte, hexEncodeToString a = hexEncodeToString b → a = b
  | [], [], _ => rfl
  | [], _ :: _, h => by simp [hexEncodeToString] at h
  | _ :: _, [], h => by simp [hexEncodeToString] at h
  | x :: xs, y :: ys, h => by
    simp only [hexEncodeToString, List.cons.injEq] at h
    obtain ⟨h1, h2, h3⟩ := h
    have e1 := fromHexChar_hexDigit ⟨x.val / 16, by omega⟩
    have e2 := fromHexChar_hexDigit ⟨y.val / 16, by omega⟩
    have e3 := fromHexChar_hexDigit ⟨x.val % 16, by omega⟩
    have e4 := fromHexChar_hexDigit ⟨y.val % 16, by omega⟩
    simp only at e1 e2 e3 e4
    rw [h1, e2] at e1
    rw [h2, e4] at e3
    have hx : x = y := by
      apply Fin.ext
      have := Option.some.inj e1
      have := Option.some.inj e3
      omega
    rw [hx, hexEncodeToString_injective xs ys h3]

theorem hexEncodeToString_signature :
    hexEncodeToString transferSignature = trc20TransferTopic := by decide

theorem hexEncodeToString_eq_topic (t : List Byte) :
    hexEncodeToString t = trc20TransferTopic ↔ t = transferSignature := by
  rw [← hexEncodeToString_signature]
  exact ⟨hexEncodeToString_injective _ _, fun h => by rw [h]⟩

theorem digitByte_val (n : Nat) : (digitByte n).val = 48 + n % 10 := by
  unfold digitByte
  simp only [Fin.ofNat, Fin.val_mk]
  omega

theorem decimalValue_append_digit (s : GoString) (n : Nat) :
    decimalValue (s ++ [digitByte n]) = decimalValue s * 10 + n % 10 := by
  simp [decimalValue, List.foldl_append, digitByte_val]

theorem decimalCore_spec (fuel : Nat) : ∀ (n : Nat) (acc : GoString), n < fuel →
    ∃ ds : GoString, decimalCore fuel n acc = ds ++ acc ∧ IsDecimalOf ds n := by
  induction fuel with
  | zero => intro n acc h; omega
  | succ fuel ih =>
    intro n acc hn
    unfold decimalCore
    have hdig : 48 ≤ (digitByte n).val ∧ (digitByte n).val ≤ 57 := by
      rw [digitByte_val]; omega
    split
    · rename_i h0
      refine ⟨[digitByte n], rfl, ⟨by simp, ?_⟩, ?_⟩
      · intro b hb
        rw [List.mem_singleton] at hb
        rw [hb]; exact hdig
      · have := decimalValue_append_digit [] n
        simp only [List.nil_append] at this
        rw [this]
        simp only [decimalValue, List.foldl_nil]
        omega
    · rename_i h0
      obtain ⟨ds, hds, ⟨hne, hdg⟩, hval⟩ := ih (n / 10) (digitByte n :: acc) (by omega)
      refine ⟨ds ++ [digitByte n], by rw [hds]; simp, ⟨by simp, ?_⟩, ?_⟩
      · intro b hb
        rcases List.mem_append.mp hb with hb | hb
        · exact hdg b hb
        · rw [List.mem_singleton] at hb
          rw [hb]; exact hdig
      · rw [decimalValue_append_digit, hval]
        omega

/-- The text of `natString n` is the unsigned base-10 rendering of `n`. -/
theorem natString_isDecimalOf (n : Nat) : IsDecimalOf (natString n) n := by
  obtain ⟨ds, hds, h⟩ := decimalCore_spec (n + 1) n [] (by omega)
  unfold natString
  rw [hds, List.append_nil]
  exact h

theorem natString_ne_nil (n : Nat) : natString n ≠ [] := (natString_isDecimalOf n).1.1

theorem bigIntString_ne_nil (z : Int) : bigIntString z ≠ [] := by
  unfold bigIntString
  split
  · simp
  · exact natString_ne_nil _

theorem bigIntString_isSignedDecimalOf (z : Int) : IsSignedDecimalOf (bigIntString z) z := by
  unfold IsSignedDecimalOf bigIntString
  constructor
  · intro h
    rw [if_neg (by omega)]
    exact natString_isDecimalOf _
  · intro h
    rw [if_pos h]
    exact ⟨_, rfl, natString_isDecimalOf _⟩

theorem transferRecords_cons (E : Env) (ca : GoString) (i : Nat) (l : TransactionInfo_Log)
    (rest : List TransactionInfo_Log) :
    transferRecords E ca i (l :: rest) =
      if isTransferLog l then logRecord E ca i l :: transferRecords E ca (i + 1) rest
      else transferRecords E ca (i + 1) rest := by
  unfold transferRecords
  rw [List.enumFrom_cons, List.filter_cons]
  split <;> simp_all

theorem isTransferLog_of_length_ne (l : TransactionInfo_Log) (h : l.Topics.length ≠ 3) :
    isTransferLog l = false := by
  unfold isTransferLog
  split
  · rename_i heq
    rw [heq] at h
    simp at h
  · rfl

/-- The loop never faults and appends exactly the records of the transfer logs. -/
theorem scanLogs_eq (E : Env) (ca : GoString) :
    ∀ (logs : List TransactionInfo_Log) (i : Nat) (acc : List depositInfo),
      scanLogs E ca i logs acc = .ok (acc ++ transferRecords E ca i logs) := by
  intro logs
  induction logs with
  | nil => intro i acc; simp [scanLogs, transferRecords]
  | cons l rest ih =>
    intro i acc
    rw [transferRecords_cons]
    unfold scanLogs
    by_cases hlen : l.Topics.length = trc20TransferTopicLen
    · rw [if_neg (not_not.mpr hlen)]
      unfold trc20TransferTopicLen at hlen
      obtain ⟨t0, t1, t2, ht⟩ : ∃ t0 t1 t2, l.Topics = [t0, t1, t2] := by
        match hT : l.Topics, hlen with
        | [a, b, c], _ => exact ⟨a, b, c, rfl⟩
      have hidx0 : index l.Topics 0 = .ok t0 := by rw [ht]; rfl
      have hidx1 : index l.Topics 1 = .ok t1 := by rw [ht]; rfl
      have hidx2 : index l.Topics 2 = .ok t2 := by rw [ht]; rfl
      simp only [hidx0, hidx1, hidx2, bind, Except.bind, hexEncodeToString_eq_topic]
      by_cases hsig : t0 = transferSignature
      · rw [if_pos hsig]
        by_cases hl1 : t1.length = 32
        · by_cases hl2 : t2.length = 32
          · have hm : isTransferLog l = true := by
              unfold isTransferLog
              rw [ht]
              simp [hsig, hl1, hl2]
            have h1 : sliceFrom t1 12 = .ok (t1.drop 12) := by
              unfold sliceFrom
              rw [if_pos (by omega)]
            have h2 : sliceFrom t2 12 = .ok (t2.drop 12) := by
              unfold sliceFrom
              rw [if_pos (by omega)]
            simp only [trc20TransferAddrLen, hl1, hl2, ne_eq, not_true_eq_false, if_false,
              decide_False, pure, Except.pure, Bool.false_eq_true, h1, h2, hm, if_true, ih]
            simp [logRecord, ht, depositInfo.zero, TronBytePrefix]
          · have hm : isTransferLog l = false := by
              unfold isTransferLog
              rw [ht]
              simp only [decide_eq_false_iff_not]
              tauto
            simp [trc20TransferAddrLen, hl1, hl2, pure, Except.pure, hm, ih]
        · have hm : isTransferLog l = false := by
            unfold isTransferLog
            rw [ht]
            simp only [decide_eq_false_iff_not]
            tauto
          simp [trc20TransferAddrLen, hl1, pure, Except.pure, hm, ih]
      · have hm : isTransferLog l = false := by
          unfold isTransferLog
          rw [ht]
          simp only [decide_eq_false_iff_not]
          tauto
        rw [if_neg hsig]
        simp [hm, ih]
    · rw [if_pos hlen]
      rw [isTransferLog_of_length_ne l hlen]
      simp [ih]

/-- What `decodeTriggerSmartContract` returns, case by case. -/
theorem decodeTriggerSmartContract_eq (E : Env) (c : Transaction_Contract)
    (txi : TransactionInfo) (hash : GoString) :
    decodeTriggerSmartContract E c txi hash =
      match E.unmarshalTrigger c.parameterValue with
      | .error err => .ok ([], some err)
      | .ok tsc =>
        if transferSelector <+: tsc.Data then
          .ok (transferRecords E (E.addressString tsc.ContractAddress) 0 txi.Log, none)
        else .ok ([], none) := by
  unfold decodeTriggerSmartContract
  split
  · rfl
  · rename_i tsc _
    simp only [hexDecodeString_selector, Bool.not_eq_true, scanLogs_eq, List.nil_append,
      bind, Except.bind]
    by_cases h : transferSelector <+: tsc.Data
    · have := (hasPrefix_iff tsc.Data transferSelector).mpr h
      simp [this, h]
    · have : hasPrefix tsc.Data transferSelector = false := by
        rw [← Bool.not_eq_true, hasPrefix_iff]; exact h
      simp [this, h]

/-! ## The sample payloads unwrap -/

theorem sampleTrigger_unwraps :
    gotron.unmarshalTrigger sampleTriggerContract.parameterValue = .ok sampleTrigger := by rfl

theorem sampleTransfer_unwraps :
    gotron.unmarshalAnyTransfer sampleTransferContract.Parameter = .ok (sampleTransfer 300) := by
  rfl

theorem sampleTransferAsset_unwraps :
    gotron.unmarshalAnyTransferAsset sampleTransferAssetContract.Parameter
      = .ok sampleTransferAsset := by
  rfl

set_option maxRecDepth 100000 in
/-- The address text form on a known token contract address. -/
theorem addressString_sampleToken :
    gotron.addressString sampleToken = goString "TR7NHqjeKQxGTCi8q8ZY4pL8otSzgjLj6t" := by
  decide

/-! ## Claims on `decodeTriggerSmartContract` -/

theorem index_of_mem_transferRecords (E : Env) (ca : GoString) (logs : List TransactionInfo_Log)
    (d : depositInfo) (hd : d ∈ transferRecords E ca 0 logs) :
    ∃ l, logs[d.index]? = some l ∧ isTransferLog l = true := by
  unfold transferRecords at hd
  obtain ⟨p, hp, rfl⟩ := List.mem_map.mp hd
  obtain ⟨hmem, hmatch⟩ := List.mem_filter.mp hp
  exact ⟨p.2, List.mem_enum_iff_getElem?.mp hmem, hmatch⟩

theorem transferRecords_index (E : Env) (ca : GoString) (i : Nat)
    (logs : List TransactionInfo_Log) :
    (transferRecords E ca i logs).map (fun d => d.index)
      = ((logs.enumFrom i).filter (fun p => isTransferLog p.2)).map Prod.fst := by
  unfold transferRecords
  rw [List.map_map]
  rfl

/-- C1: for a payload that unwraps and whose invocation data starts with
`a9 05 9c bb`, and for every receipt, `decodeTriggerSmartContract` returns no error
and exactly the records of the log entries that have 3 topics, the transfer
signature as topic 0 and 32-byte topics 1 and 2, in log order; the index of each
record is the position of its entry in the receipt's log. An entry with 2 or 4
topics gives no record, and a receipt of 3 logs where only entry 1 matches gives
exactly one record, with index 1. -/
theorem decodeTriggerSmartContract_all_transfer_logs (E : Env) (c : Transaction_Contract)
    (txi : TransactionInfo) (hash : GoString) (tsc : TriggerSmartContract)
    (hun : E.unmarshalTrigger c.parameterValue = .ok tsc)
    (hsel : transferSelector <+: tsc.Data) :
    ∃ ds : List depositInfo,
      decodeTriggerSmartContract E c txi hash = .ok (ds, none) ∧
      ds = ((txi.Log.enum.filter (fun p => isTransferLog p.2)).map
              (fun p => logRecord E (E.addressString tsc.ContractAddress) p.1 p.2)) ∧
      ds.map (fun d => d.index)
        = ((txi.Log.enum.filter (fun p => isTransferLog p.2)).map Prod.fst) ∧
      (∀ (i : Nat) (l : TransactionInfo_Log), txi.Log[i]? = some l →
          l.Topics.length = 2 ∨ l.Topics.length = 4 → ∀ d ∈ ds, d.index ≠ i) ∧
      (∀ l0 l1 l2 : TransactionInfo_Log, txi.Log = [l0, l1, l2] →
          isTransferLog l0 = false → isTransferLog l1 = true → isTransferLog l2 = false →
          ∃ d, ds = [d] ∧ d.index = 1) := by
  refine ⟨transferRecords E (E.addressString tsc.ContractAddress) 0 txi.Log, ?_, rfl,
    transferRecords_index _ _ _ _, ?_, ?_⟩
  · rw [decodeTriggerSmartContract_eq, hun]
    simp only [hsel, if_true]
  · intro i l hl hlen d hd hi
    obtain ⟨l', hl', hm⟩ := index_of_mem_transferRecords _ _ _ d hd
    rw [hi, hl] at hl'
    cases Option.some.inj hl'
    have : isTransferLog l = false := isTransferLog_of_length_ne l (by omega)
    rw [this] at hm
    cases hm
  · intro l0 l1 l2 hlog h0 h1 h2
    refine ⟨logRecord E (E.addressString tsc.ContractAddress) 1 l1, ?_, rfl⟩
    rw [hlog]
    simp [transferRecords_cons, h0, h1, h2, transferRecords]

/-- Witness for C1: a receipt of three logs of which only the middle one is a
transfer log. -/
theorem decodeTriggerSmartContract_all_transfer_logs_witness :
    ∃ d : depositInfo,
      decodeTriggerSmartContract gotron sampleTriggerContract
          (sampleReceipt [sampleOtherLog, sampleTransferLog, sampleOtherLog]) sampleRequest.Hash
        = .ok ([d], none) ∧ d.index = 1 := by
  obtain ⟨ds, hrun, -, -, -, h3⟩ :=
    decodeTriggerSmartContract_all_transfer_logs gotron sampleTriggerContract
      (sampleReceipt [sampleOtherLog, sampleTransferLog, sampleOtherLog]) sampleRequest.Hash
      sampleTrigger sampleTrigger_unwraps ⟨_, rfl⟩
  obtain ⟨d, hd, hi⟩ := h3 sampleOtherLog sampleTransferLog sampleOtherLog rfl
    (by decide) (by decide) (by decide)
  exact ⟨d, hd ▸ hrun, hi⟩

/-- C2: for a payload with selector `a9059cbb` and a receipt with exactly one log
entry that has 3 topics, the transfer signature as topic 0 and 32-byte topics 1 and
2, `decodeTriggerSmartContract` returns exactly one record: `fromAddr` encodes the
21-byte address `0x41` followed by bytes 12..31 of topic 1, `toAddr` the same for
topic 2, `amount` is the base-10 text of the big-endian value of the log data
(`"0"` for empty data), `contractAddr` encodes the target contract address and
`tokenID` is empty. -/
theorem decodeTriggerSmartContract_single_log (E : Env) (c : Transaction_Contract)
    (txi : TransactionInfo) (hash : GoString) (tsc : TriggerSmartContract)
    (l : TransactionInfo_Log) (t1 t2 : List Byte)
    (hun : E.unmarshalTrigger c.parameterValue = .ok tsc)
    (hsel : transferSelector <+: tsc.Data)
    (hlog : txi.Log = [l])
    (htopics : l.Topics = [transferSignature, t1, t2])
    (h1 : t1.length = 32) (h2 : t2.length = 32) :
    decodeTriggerSmartContract E c txi hash
        = .ok ([{ tokenID := []
                  fromAddr := E.addressString ((0x41 : Byte) :: t1.drop 12)
                  toAddr := E.addressString ((0x41 : Byte) :: t2.drop 12)
                  amount := natString (setBytes l.Data)
                  index := 0
                  contractAddr := E.addressString tsc.ContractAddress }], none) ∧
      ((0x41 : Byte) :: t1.drop 12).length = 21 ∧
      ((0x41 : Byte) :: t2.drop 12).length = 21 ∧
      IsDecimalOf (natString (setBytes l.Data)) (setBytes l.Data) ∧
      (l.Data = [] → natString (setBytes l.Data) = goString "0") := by
  refine ⟨?_, by simp [h1], by simp [h2], natString_isDecimalOf _, ?_⟩
  · rw [decodeTriggerSmartContract_eq, hun]
    have hm : isTransferLog l = true := by
      unfold isTransferLog
      rw [htopics]
      simp [h1, h2]
    simp only [hsel, if_true, hlog, transferRecords_cons, hm]
    simp [transferRecords, logRecord, htopics]
  · intro h
    rw [h]
    decide

/-- Witness for C2: the sample transfer log alone in the receipt. -/
theorem decodeTriggerSmartContract_single_log_witness :
    decodeTriggerSmartContract gotron sampleTriggerContract (sampleReceipt [sampleTransferLog])
        sampleRequest.Hash
      = .ok ([{ tokenID := []
                fromAddr := gotron.addressString sampleOwner
                toAddr := gotron.addressString sampleRecipient
                amount := goString "5"
                index := 0
                contractAddr := gotron.addressString sampleToken }], none) :=
  (decodeTriggerSmartContract_single_log gotron sampleTriggerContract
    (sampleReceipt [sampleTransferLog]) sampleRequest.Hash sampleTrigger sampleTransferLog
    (List.replicate 12 0 ++ List.replicate 20 0x11)
    (List.replicate 12 0 ++ List.replicate 20 0x22)
    sampleTrigger_unwraps ⟨_, rfl⟩ rfl rfl (by decide) (by decide)).1

/-! ## The local decoder and the concrete address encoder -/

/-- What `decodeTriggerSmartContractLocal` returns, case by case: the slices
`Data[16:36]` and `Data[36:]` fault when the data is shorter than 36 bytes. -/
theorem decodeTriggerSmartContractLocal_eq (E : Env) (c : Transaction_Contract)
    (hash : GoString) :
    decodeTriggerSmartContractLocal E c hash =
      match E.unmarshalTrigger c.parameterValue with
      | .error err => .ok ([], some err)
      | .ok tsc =>
        if transferSelector <+: tsc.Data then
          if 36 ≤ tsc.Data.length then
            .ok ([{ tokenID := []
                    fromAddr := E.addressString tsc.OwnerAddress
                    toAddr := E.addressString ((0x41 : Byte) :: (tsc.Data.take 36).drop 16)
                    amount := natString (setBytes (tsc.Data.drop 36))
                    index := 0
                    contractAddr := E.addressString tsc.ContractAddress }], none)
          else .error .sliceOutOfRange
        else .ok ([], none) := by
  unfold decodeTriggerSmartContractLocal
  split
  · rfl
  · rename_i tsc _
    simp only [hexDecodeString_selector, Bool.not_eq_true, bind, Except.bind]
    by_cases h : transferSelector <+: tsc.Data
    · have hp := (hasPrefix_iff tsc.Data transferSelector).mpr h
      simp only [hp, h, if_true, Bool.true_eq_false, if_false]
      have hs : transferSelector.length + trc20TransferAddrLen = 36 := rfl
      have hs' : 36 - AddressLength + 1 = 16 := rfl
      rw [hs, hs']
      by_cases hlen : 36 ≤ tsc.Data.length
      · have h1 : slice tsc.Data 16 36 = .ok ((tsc.Data.take 36).drop 16) := by
          unfold slice
          rw [if_pos ⟨by omega, hlen⟩]
        have h2 : sliceFrom tsc.Data 36 = .ok (tsc.Data.drop 36) := by
          unfold sliceFrom
          rw [if_pos hlen]
        simp only [h1, h2, hlen, if_true]
        rfl
      · have h1 : slice tsc.Data 16 36 = .error .sliceOutOfRange := by
          unfold slice
          rw [if_neg (fun hc => hlen hc.2)]
        simp only [h1, hlen, if_false]
    · have hp : hasPrefix tsc.Data transferSelector = false := by
        rw [← Bool.not_eq_true, hasPrefix_iff]; exact h
      simp [hp, h]

/-- Every record `decodeTriggerSmartContract` returns is the record of a transfer
log of the receipt, at the position its index names. -/
theorem mem_decodeTriggerSmartContract (E : Env) (c : Transaction_Contract)
    (txi : TransactionInfo) (hash : GoString) (ds : List depositInfo) (err : Option GoError)
    (h : decodeTriggerSmartContract E c txi hash = .ok (ds, err)) (d : depositInfo)
    (hd : d ∈ ds) :
    ∃ (tsc : TriggerSmartContract) (i : Nat) (l : TransactionInfo_Log),
      E.unmarshalTrigger c.parameterValue = .ok tsc ∧ txi.Log[i]? = some l ∧
      isTransferLog l = true ∧ d = logRecord E (E.addressString tsc.ContractAddress) i l := by
  rw [decodeTriggerSmartContract_eq] at h
  split at h
  · cases h
    cases hd
  · rename_i tsc hun
    split at h
    · cases h
      unfold transferRecords at hd
      obtain ⟨p, hp, rfl⟩ := List.mem_map.mp hd
      obtain ⟨hmem, hmatch⟩ := List.mem_filter.mp hp
      exact ⟨tsc, p.1, p.2, hun, List.mem_enum_iff_getElem?.mp hmem, hmatch, rfl⟩
    · cases h
      cases hd

theorem foldl_setBytes_pos : ∀ (rest : List Byte) (acc : Nat), 0 < acc →
    0 < rest.foldl (fun acc x => acc * 256 + x.val) acc
  | [], _, h => h
  | x :: rest, acc, h => by
    rw [List.foldl_cons]
    exact foldl_setBytes_pos rest _ (by omega)

theorem base58Core_length : ∀ (fuel n : Nat) (acc : GoString),
    acc.length ≤ (base58Core fuel n acc).length
  | 0, _, _ => Nat.le_refl _
  | fuel + 1, n, acc => by
    unfold base58Core
    split
    · exact Nat.le_refl _
    · exact Nat.le_trans (by simp) (base58Core_length fuel _ _)

theorem base58Core_ne_nil (n : Nat) (h : 0 < n) : base58Core (n + 1) n [] ≠ [] := by
  intro hnil
  have hlen := base58Core_length n (n / 58) [base58Alphabet.getD (n % 58) 0]
  rw [base58Core, if_neg (by omega)] at hnil
  rw [hnil] at hlen
  simp at hlen

theorem encodeCheck_ne_nil (b : Byte) (rest : List Byte) (hb : b ≠ 0) :
    encodeCheck (b :: rest) ≠ [] := by
  have hpos : 0 < setBytes (b :: rest ++ (sha256 (sha256 (b :: rest))).take 4) := by
    unfold setBytes
    rw [List.cons_append, List.foldl_cons]
    apply foldl_setBytes_pos
    have : b.val ≠ 0 := fun h => hb (Fin.ext h)
    omega
  unfold encodeCheck base58Encode
  intro h
  exact base58Core_ne_nil _ hpos (List.append_eq_nil.mp h).2

/-- The concrete encoder renders every non-empty raw address as non-empty text. -/
theorem addressString_ne_nil (a : List Byte) (h : a ≠ []) : addressString a ≠ [] := by
  unfold addressString
  match a, h with
  | b :: rest, _ =>
    simp only
    split
    · exact natString_ne_nil _
    · rename_i hb
      exact encodeCheck_ne_nil b rest hb

/-! ## The payload decoders, case by case -/

theorem decodeTransferContract_ok (E : Env) (c : Transaction_Contract) (hash : GoString)
    (tc : TransferContract) (hun : E.unmarshalAnyTransfer c.Parameter = .ok tc) :
    decodeTransferContract E c hash
      = ([{ tokenID := TronSymbol
            fromAddr := E.addressString tc.OwnerAddress
            toAddr := E.addressString tc.ToAddress
            amount := bigIntString tc.Amount
            index := 0
            contractAddr := [] }], none) := by
  unfold decodeTransferContract
  rw [hun]
  rfl

theorem decodeTransferContract_error (E : Env) (c : Transaction_Contract) (hash : GoString)
    (err : GoError) (hun : E.unmarshalAnyTransfer c.Parameter = .error err) :
    decodeTransferContract E c hash = ([], some err) := by
  unfold decodeTransferContract
  rw [hun]

theorem decodeTransferAssetContract_ok (E : Env) (c : Transaction_Contract) (hash : GoString)
    (tc : TransferAssetContract) (hun : E.unmarshalAnyTransferAsset c.Parameter = .ok tc) :
    decodeTransferAssetContract E c hash
      = ([{ tokenID := []
            fromAddr := E.addressString tc.OwnerAddress
            toAddr := E.addressString tc.ToAddress
            amount := bigIntString tc.Amount
            index := 0
            contractAddr := tc.AssetName }], none) := by
  unfold decodeTransferAssetContract
  simp only [hun]
  rfl

theorem decodeTransferAssetContract_error (E : Env) (c : Transaction_Contract)
    (hash : GoString) (err : GoError)
    (hun : E.unmarshalAnyTransferAsset c.Parameter = .error err) :
    decodeTransferAssetContract E c hash = ([], some err) := by
  unfold decodeTransferAssetContract
  simp only [hun]

/-! ## `GetTxByHash` after the dispatch -/

theorem assemble_nil (cfg : Config) (req : TxHashRequest) (txi : TransactionInfo) :
    assemble cfg req txi [] = .error .indexOutOfRange := by
  rfl

theorem assemble_single (cfg : Config) (req : TxHashRequest) (txi : TransactionInfo)
    (d : depositInfo) :
    assemble cfg req txi [d]
      = .ok ({ Error := some successError
               Tx := some { Hash := req.Hash, From := d.fromAddr, To := d.toAddr
                            Fee := bigIntString txi.Fee
                            Status := decide (txi.Result = TransactionInfo_SUCESS)
                            Value := d.amount, Type' := 0
                            Height := runeString txi.BlockNumber
                            ContractAddress := d.contractAddr } }, none) := by
  unfold assemble
  simp only [List.length_singleton, gt_iff_lt, lt_self_iff_false, if_false, one_ne_zero,
    index, List.getElem?_cons_zero, bind, Except.bind]
  by_cases h : txi.Result = TransactionInfo_SUCESS
  · simp [h]
  · by_cases h' : txi.Result = TransactionInfo_FAILED <;> simp [h, h']

theorem assemble_many (cfg : Config) (req : TxHashRequest) (txi : TransactionInfo)
    (ds : List depositInfo) (h : 2 ≤ ds.length) :
    assemble cfg req txi ds
      = .ok (errorResponse cfg, some (.moreThanOneDeposit ds.length req.Hash)) := by
  unfold assemble
  rw [if_pos (by omega)]

/-- With the transaction and receipt fetched and the single instruction decoded
without error, `GetTxByHash` is what follows its dispatch. -/
theorem GetTxByHash_of_decodes (E : Env) (cfg : Config) (grpcClient : Client)
    (req : TxHashRequest) (c : Transaction_Contract) (txi : TransactionInfo)
    (ds : List depositInfo) (hf : Fetched grpcClient req c txi)
    (hd : DecodesTo E c txi req.Hash ds) :
    GetTxByHash E cfg grpcClient req = assemble cfg req txi ds := by
  unfold GetTxByHash
  rw [hf.1]
  simp only [List.length_singleton, ne_eq, not_true_eq_false, if_false, hf.2, index,
    List.getElem?_cons_zero, bind, Except.bind]
  rcases hd with ⟨hk, hdec⟩ | ⟨hk, hdec⟩ | ⟨hk, hdec⟩
  · rw [if_pos hk, hdec]
    rfl
  · rw [if_neg (by rw [hk]; decide), if_pos hk, hdec]
    rfl
  · rw [if_neg (by rw [hk]; decide), if_neg (by rw [hk]; decide), if_pos hk, hdec]
    rfl

/-- Whenever the single instruction decodes to no record, `GetTxByHash` faults on
`depositList[0]`. -/
theorem GetTxByHash_zero_records (E : Env) (cfg : Config) (grpcClient : Client)
    (req : TxHashRequest) (c : Transaction_Contract) (txi : TransactionInfo)
    (hf : Fetched grpcClient req c txi) (hd : DecodesTo E c txi req.Hash []) :
    GetTxByHash E cfg grpcClient req = .error .indexOutOfRange := by
  rw [GetTxByHash_of_decodes E cfg grpcClient req c txi [] hf hd, assemble_nil]

theorem sampleClient_fetched (c : Transaction_Contract) (txi : TransactionInfo)
    (req : TxHashRequest) : Fetched (sampleClient c txi) req c txi :=
  ⟨rfl, rfl⟩

theorem sampleTransfer_decodes (txi : TransactionInfo) (hash : GoString) :
    DecodesTo gotron sampleTransferContract txi hash
      [{ tokenID := TronSymbol
         fromAddr := gotron.addressString sampleOwner
         toAddr := gotron.addressString sampleRecipient
         amount := bigIntString 300
         index := 0
         contractAddr := [] }] :=
  Or.inl ⟨rfl, decodeTransferContract_ok gotron sampleTransferContract hash (sampleTransfer 300)
    sampleTransfer_unwraps⟩

/-! ## Claims on `GetTxByHash` -/

/-- C3 (the code departs from the claim): a fetched transaction whose single
instruction is a smart-contract trigger calling `approve`, or a `transfer` trigger
whose receipt has no matching log, decodes to zero records without error;
`GetTxByHash` then does not return the success response with empty `From` and
`To`, it faults with an index out of range. -/
theorem GetTxByHash_zero_records_sample :
    decodeTriggerSmartContract gotron sampleApproveContract (sampleReceipt [])
        sampleRequest.Hash = .ok ([], none) ∧
      GetTxByHash gotron sampleConfig (sampleClient sampleApproveContract (sampleReceipt []))
        sampleRequest = .error .indexOutOfRange ∧
      decodeTriggerSmartContract gotron sampleTriggerContract (sampleReceipt [sampleOtherLog])
        sampleRequest.Hash = .ok ([], none) ∧
      GetTxByHash gotron sampleConfig
        (sampleClient sampleTriggerContract (sampleReceipt [sampleOtherLog]))
        sampleRequest = .error .indexOutOfRange := by
  refine ⟨?_, ?_, ?_, ?_⟩ <;> rfl

/-- C4: when the single contract instruction decodes to 2 or more records,
`GetTxByHash` returns the error code `ERROR` with the unsupported-operation
classification, no `Tx` message, and a non-nil error. -/
theorem GetTxByHash_many_records (E : Env) (cfg : Config) (grpcClient : Client)
    (req : TxHashRequest) (c : Transaction_Contract) (txi : TransactionInfo)
    (ds : List depositInfo) (hf : Fetched grpcClient req c txi)
    (hd : DecodesTo E c txi req.Hash ds) (hlen : 2 ≤ ds.length) :
    GetTxByHash E cfg grpcClient req
      = .ok ({ Error := some { Code := .ERROR, Brief := cfg.UnsupportedOperation,
                               Detail := cfg.UnsupportedChain, CanRetry := true }
               Tx := none },
             some (.moreThanOneDeposit ds.length req.Hash)) := by
  rw [GetTxByHash_of_decodes E cfg grpcClient req c txi ds hf hd, assemble_many _ _ _ _ hlen]
  rfl

/-- Witness for C4: a trigger whose receipt holds two transfer logs. -/
theorem GetTxByHash_many_records_witness :
    GetTxByHash gotron sampleConfig
        (sampleClient sampleTriggerContract (sampleReceipt [sampleTransferLog, sampleTransferLog]))
        sampleRequest
      = .ok ({ Error := some { Code := .ERROR, Brief := sampleConfig.UnsupportedOperation,
                               Detail := sampleConfig.UnsupportedChain, CanRetry := true }
               Tx := none },
             some (.moreThanOneDeposit 2 sampleRequest.Hash)) :=
  GetTxByHash_many_records gotron sampleConfig _ sampleRequest sampleTriggerContract
    (sampleReceipt [sampleTransferLog, sampleTransferLog])
    (transferRecords gotron (gotron.addressString sampleToken) 0
      [sampleTransferLog, sampleTransferLog])
    (sampleClient_fetched _ _ _)
    (Or.inr (Or.inr ⟨rfl, by
      rw [decodeTriggerSmartContract_eq, sampleTrigger_unwraps]
      rfl⟩))
    (by decide)

/-- C9 (the code departs from the claim): with exactly one record decoded, the
`Height` field is not the base-10 text of the receipt's block number but the UTF-8
text of the code point with that number: block 65 gives `"A"`, not `"65"`, and the
different block numbers 2000000 and 3000000 give the same `Height`. -/
theorem GetTxByHash_height_sample :
    (∃ resp tx,
        GetTxByHash gotron sampleConfig (sampleClient sampleTransferContract (sampleReceipt []))
          sampleRequest = .ok (resp, none) ∧
        resp.Tx = some tx ∧ (sampleReceipt []).BlockNumber = 65 ∧
        tx.Height = goString "A" ∧ tx.Height ≠ bigIntString 65 ∧
        tx.Fee = bigIntString 345000) ∧
    (∃ resp1 resp2 tx1 tx2,
        GetTxByHash gotron sampleConfig
          (sampleClient sampleTransferContract
            { Fee := 0, BlockNumber := 2000000, Result := TransactionInfo_SUCESS, Log := [] })
          sampleRequest = .ok (resp1, none) ∧
        GetTxByHash gotron sampleConfig
          (sampleClient sampleTransferContract
            { Fee := 0, BlockNumber := 3000000, Result := TransactionInfo_SUCESS, Log := [] })
          sampleRequest = .ok (resp2, none) ∧
        resp1.Tx = some tx1 ∧ resp2.Tx = some tx2 ∧ tx1.Height = tx2.Height) := by
  have h (txi : TransactionInfo) :=
    (GetTxByHash_of_decodes gotron sampleConfig _ sampleRequest sampleTransferContract txi _
      (sampleClient_fetched _ _ _) (sampleTransfer_decodes _ _)).trans
      (assemble_single sampleConfig sampleRequest txi _)
  exact ⟨⟨_, _, h _, rfl, rfl, by decide, by decide, rfl⟩,
    ⟨_, _, _, _, h _, h _, rfl, rfl, by decide⟩⟩

/-- C10: when the single contract instruction decodes to exactly one record,
`GetTxByHash` returns the success code, no error, and a `Tx` message whose `Hash`
is the requested hash, whose `From`, `To`, `Value` and `ContractAddress` are the
record's `fromAddr`, `toAddr`, `amount` and `contractAddr`, whose `Fee` is the
base-10 text of the receipt's fee, and whose `Status` is true exactly when the
receipt's result code is success. -/
theorem GetTxByHash_single_record (E : Env) (cfg : Config) (grpcClient : Client)
    (req : TxHashRequest) (c : Transaction_Contract) (txi : TransactionInfo)
    (d : depositInfo) (hf : Fetched grpcClient req c txi)
    (hd : DecodesTo E c txi req.Hash [d]) :
    ∃ (resp : TxHashResponse) (tx : TxMessage),
      GetTxByHash E cfg grpcClient req = .ok (resp, none) ∧
      resp.Error = some { Code := .SUCCESS, Brief := [], Detail := [], CanRetry := false } ∧
      resp.Tx = some tx ∧
      tx.Hash = req.Hash ∧ tx.From = d.fromAddr ∧ tx.To = d.toAddr ∧ tx.Value = d.amount ∧
      tx.ContractAddress = d.contractAddr ∧
      tx.Fee = bigIntString txi.Fee ∧ IsSignedDecimalOf tx.Fee txi.Fee ∧
      (tx.Status = true ↔ txi.Result = TransactionInfo_SUCESS) := by
  have h := (GetTxByHash_of_decodes E cfg grpcClient req c txi [d] hf hd).trans
    (assemble_single cfg req txi d)
  exact ⟨_, _, h, rfl, rfl, rfl, rfl, rfl, rfl, rfl, rfl, bigIntString_isSignedDecimalOf _,
    by simp⟩

/-- Witness for C10: the sample native transfer with the sample receipt. -/
theorem GetTxByHash_single_record_witness :
    ∃ (resp : TxHashResponse) (tx : TxMessage),
      GetTxByHash gotron sampleConfig (sampleClient sampleTransferContract (sampleReceipt []))
        sampleRequest = .ok (resp, none) ∧
      resp.Error = some { Code := .SUCCESS, Brief := [], Detail := [], CanRetry := false } ∧
      resp.Tx = some tx ∧
      tx.Hash = goString "c0ffee" ∧ tx.From = gotron.addressString sampleOwner ∧
      tx.To = gotron.addressString sampleRecipient ∧ tx.Value = goString "300" ∧
      tx.ContractAddress = [] ∧ tx.Fee = goString "345000" ∧ tx.Status = true := by
  obtain ⟨resp, tx, h1, h2, h3, h4, h5, h6, h7, h8, h9, -, h11⟩ :=
    GetTxByHash_single_record gotron sampleConfig
      (sampleClient sampleTransferContract (sampleReceipt [])) sampleRequest
      sampleTransferContract (sampleReceipt []) _ (sampleClient_fetched _ _ _)
      (sampleTransfer_decodes _ _)
  exact ⟨resp, tx, h1, h2, h3, h4, h5, h6, h7, h8, h9, h11.mpr rfl⟩

/-! ## Claims on the payload decoders -/

/-- C5: for a payload that unwraps to a native transfer contract,
`decodeTransferContract` returns no error and exactly one record, with `tokenID`
the native symbol `"trx"`, empty `contractAddr`, `fromAddr` and `toAddr` the
encodings of the payload's owner and recipient addresses, and `amount` the base-10
text of the signed amount; when the payload does not unwrap it returns the unwrap
error and no list. -/
theorem decodeTransferContract_native (E : Env) (c : Transaction_Contract) (hash : GoString) :
    (∀ tc : TransferContract, E.unmarshalAnyTransfer c.Parameter = .ok tc →
      decodeTransferContract E c hash
          = ([{ tokenID := goString "trx"
                fromAddr := E.addressString tc.OwnerAddress
                toAddr := E.addressString tc.ToAddress
                amount := bigIntString tc.Amount
                index := 0
                contractAddr := [] }], none) ∧
        IsSignedDecimalOf (bigIntString tc.Amount) tc.Amount) ∧
    (∀ err : GoError, E.unmarshalAnyTransfer c.Parameter = .error err →
      decodeTransferContract E c hash = ([], some err)) :=
  ⟨fun tc hun => ⟨decodeTransferContract_ok E c hash tc hun, bigIntString_isSignedDecimalOf _⟩,
   fun err hun => decodeTransferContract_error E c hash err hun⟩

/-- Witness for C5: the sample native transfer unwraps and gives one record; a
payload naming another message type gives the unwrap error. -/
theorem decodeTransferContract_native_witness :
    decodeTransferContract gotron sampleTransferContract sampleRequest.Hash
        = ([{ tokenID := goString "trx"
              fromAddr := gotron.addressString sampleOwner
              toAddr := gotron.addressString sampleRecipient
              amount := goString "300"
              index := 0
              contractAddr := [] }], none) ∧
      decodeTransferContract gotron sampleMistypedContract sampleRequest.Hash
        = ([], some (.external (goString "mismatched message type"))) :=
  ⟨((decodeTransferContract_native gotron sampleTransferContract sampleRequest.Hash).1
      (sampleTransfer 300) sampleTransfer_unwraps).1,
   (decodeTransferContract_native gotron sampleMistypedContract sampleRequest.Hash).2
      (.external (goString "mismatched message type")) rfl⟩

/-- C6, as stated, fails: for the sample asset transfer, whose asset name is
`abc`, the `tokenID` field of the record is empty. -/
theorem decodeTransferAssetContract_tokenID_counterexample :
    gotron.unmarshalAnyTransferAsset sampleTransferAssetContract.Parameter
        = .ok sampleTransferAsset ∧
      sampleTransferAsset.AssetName = goString "abc" ∧
      ∃ d : depositInfo,
        decodeTransferAssetContract gotron sampleTransferAssetContract sampleRequest.Hash
          = ([d], none) ∧
        d.tokenID = [] ∧ d.tokenID ≠ sampleTransferAsset.AssetName :=
  ⟨sampleTransferAsset_unwraps, rfl, _,
    decodeTransferAssetContract_ok gotron sampleTransferAssetContract sampleRequest.Hash
      sampleTransferAsset sampleTransferAsset_unwraps,
    rfl, by decide⟩

/-- C6, amended: for a payload that unwraps to a legacy asset transfer contract,
the single record returned by `decodeTransferAssetContract` carries the asset name,
byte for byte, in its `contractAddr` field, and its `tokenID` field is empty. -/
theorem decodeTransferAssetContract_asset_name (E : Env) (c : Transaction_Contract)
    (hash : GoString) (tc : TransferAssetContract)
    (hun : E.unmarshalAnyTransferAsset c.Parameter = .ok tc) :
    ∃ d : depositInfo,
      decodeTransferAssetContract E c hash = ([d], none) ∧
      d.contractAddr = tc.AssetName ∧ d.tokenID = [] :=
  ⟨_, decodeTransferAssetContract_ok E c hash tc hun, rfl, rfl⟩

/-- Witness for C6, amended: the sample asset transfer. -/
theorem decodeTransferAssetContract_asset_name_witness :
    ∃ d : depositInfo,
      decodeTransferAssetContract gotron sampleTransferAssetContract sampleRequest.Hash
        = ([d], none) ∧
      d.contractAddr = goString "abc" ∧ d.tokenID = [] :=
  decodeTransferAssetContract_asset_name gotron sampleTransferAssetContract sampleRequest.Hash
    sampleTransferAsset sampleTransferAsset_unwraps

/-- With an address encoder that renders every non-empty raw address as non-empty
text, every record a decoder returns has a non-empty `amount`;
`fromAddr` and `toAddr` are non-empty whenever the raw address they encode is
non-empty, which is always so for the records of `decodeTriggerSmartContract` and
for `toAddr` of `decodeTriggerSmartContractLocal`, and is so for the addresses
taken from the payload when the payload's owner and recipient addresses are
non-empty. -/
theorem decoders_records_populated (E : Env)
    (hE : ∀ a : List Byte, a ≠ [] → E.addressString a ≠ [])
    (c : Transaction_Contract) (txi : TransactionInfo) (hash : GoString) :
    (∀ tc : TransferContract, E.unmarshalAnyTransfer c.Parameter = .ok tc →
      ∀ d ∈ (decodeTransferContract E c hash).1,
        d.amount ≠ [] ∧ (tc.OwnerAddress ≠ [] → d.fromAddr ≠ []) ∧
        (tc.ToAddress ≠ [] → d.toAddr ≠ [])) ∧
    (∀ tc : TransferAssetContract, E.unmarshalAnyTransferAsset c.Parameter = .ok tc →
      ∀ d ∈ (decodeTransferAssetContract E c hash).1,
        d.amount ≠ [] ∧ (tc.OwnerAddress ≠ [] → d.fromAddr ≠ []) ∧
        (tc.ToAddress ≠ [] → d.toAddr ≠ [])) ∧
    (∀ (ds : List depositInfo) (err : Option GoError),
      decodeTriggerSmartContract E c txi hash = .ok (ds, err) → ∀ d ∈ ds, Populated d) ∧
    (∀ tsc : TriggerSmartContract, E.unmarshalTrigger c.parameterValue = .ok tsc →
      ∀ (ds : List depositInfo) (err : Option GoError),
        decodeTriggerSmartContractLocal E c hash = .ok (ds, err) →
        ∀ d ∈ ds, d.amount ≠ [] ∧ d.toAddr ≠ [] ∧ (tsc.OwnerAddress ≠ [] → d.fromAddr ≠ [])) := by
  refine ⟨?_, ?_, ?_, ?_⟩
  · intro tc hun d hd
    rw [decodeTransferContract_ok E c hash tc hun] at hd
    cases List.mem_singleton.mp hd
    exact ⟨bigIntString_ne_nil _, hE _, hE _⟩
  · intro tc hun d hd
    rw [decodeTransferAssetContract_ok E c hash tc hun] at hd
    cases List.mem_singleton.mp hd
    exact ⟨bigIntString_ne_nil _, hE _, hE _⟩
  · intro ds err h d hd
    obtain ⟨tsc, i, l, -, -, -, rfl⟩ := mem_decodeTriggerSmartContract E c txi hash ds err h d hd
    exact ⟨hE _ (by simp), hE _ (by simp), natString_ne_nil _⟩
  · intro tsc hun ds err h d hd
    rw [decodeTriggerSmartContractLocal_eq, hun] at h
    simp only at h
    split at h
    · split at h
      · cases h
        cases List.mem_singleton.mp hd
        exact ⟨natString_ne_nil _, hE _ (by simp), hE _⟩
      · cases h
    · cases h
      cases hd

/-- The concrete encoder meets the hypothesis of `decoders_records_populated`, and
the records of the sample native transfer and of the sample transfer log are
fully populated. -/
theorem decoders_records_populated_witness :
    (∃ d : depositInfo,
        decodeTransferContract gotron sampleTransferContract sampleRequest.Hash = ([d], none) ∧
        Populated d) ∧
    (∃ d : depositInfo,
        decodeTriggerSmartContract gotron sampleTriggerContract
          (sampleReceipt [sampleTransferLog]) sampleRequest.Hash = .ok ([d], none) ∧
        Populated d) := by
  have hnat := decodeTransferContract_ok gotron sampleTransferContract sampleRequest.Hash
    (sampleTransfer 300) sampleTransfer_unwraps
  have hlog : decodeTriggerSmartContract gotron sampleTriggerContract
      (sampleReceipt [sampleTransferLog]) sampleRequest.Hash
        = .ok (transferRecords gotron (gotron.addressString sampleToken) 0 [sampleTransferLog],
            none) := by
    rw [decodeTriggerSmartContract_eq, sampleTrigger_unwraps]
    rfl
  refine ⟨⟨_, hnat, ?_⟩, ⟨logRecord gotron (gotron.addressString sampleToken) 0
    sampleTransferLog, hlog, ?_⟩⟩
  · obtain ⟨ha, hf, ht⟩ :=
      (decoders_records_populated gotron addressString_ne_nil sampleTransferContract
        (sampleReceipt []) sampleRequest.Hash).1 (sampleTransfer 300) sampleTransfer_unwraps _
        (by rw [hnat]; exact List.mem_singleton.mpr rfl)
    exact ⟨hf (by decide), ht (by decide), ha⟩
  · exact (decoders_records_populated gotron addressString_ne_nil sampleTriggerContract
      (sampleReceipt [sampleTransferLog]) sampleRequest.Hash).2.2.1 _ _ hlog _
      (List.mem_singleton.mpr rfl)

theorem sampleApprove_unwraps :
    gotron.unmarshalTrigger sampleApproveContract.parameterValue
      = .ok { OwnerAddress := [], ContractAddress := [], CallValue := 0,
              Data := [0x09, 0x5e, 0xa7, 0xb3], CallTokenValue := 0, TokenId := 0 } := by
  rfl

theorem sampleEmptyTrigger_unwraps :
    gotron.unmarshalTrigger sampleEmptyTriggerContract.parameterValue
      = .ok { OwnerAddress := [], ContractAddress := [], CallValue := 0,
              Data := [], CallTokenValue := 0, TokenId := 0 } := by
  rfl

theorem sampleSelectorOnly_unwraps :
    gotron.unmarshalTrigger sampleSelectorOnlyContract.parameterValue
      = .ok { OwnerAddress := [], ContractAddress := [], CallValue := 0,
              Data := transferSelector, CallTokenValue := 0, TokenId := 0 } := by
  rfl

/-- C11: for a payload that unwraps and whose invocation data does not start with
the selector `a9 05 9c bb` (data shorter than 4 bytes and empty data included),
`decodeTriggerSmartContract` returns an empty list and no error whatever the
receipt holds, and so does `decodeTriggerSmartContractLocal`. -/
theorem decoders_other_selector (E : Env) (c : Transaction_Contract) (txi : TransactionInfo)
    (hash : GoString) (tsc : TriggerSmartContract)
    (hun : E.unmarshalTrigger c.parameterValue = .ok tsc)
    (hsel : ¬ transferSelector <+: tsc.Data) :
    decodeTriggerSmartContract E c txi hash = .ok ([], none) ∧
      decodeTriggerSmartContractLocal E c hash = .ok ([], none) := by
  constructor
  · rw [decodeTriggerSmartContract_eq, hun]
    simp only [hsel, if_false]
  · rw [decodeTriggerSmartContractLocal_eq, hun]
    simp only [hsel, if_false]

/-- Witness for C11: an `approve` call with a receipt that holds a transfer log,
and a payload with empty invocation data. -/
theorem decoders_other_selector_witness :
    (decodeTriggerSmartContract gotron sampleApproveContract (sampleReceipt [sampleTransferLog])
        sampleRequest.Hash = .ok ([], none) ∧
      decodeTriggerSmartContractLocal gotron sampleApproveContract sampleRequest.Hash
        = .ok ([], none)) ∧
    (decodeTriggerSmartContract gotron sampleEmptyTriggerContract
        (sampleReceipt [sampleTransferLog]) sampleRequest.Hash = .ok ([], none) ∧
      decodeTriggerSmartContractLocal gotron sampleEmptyTriggerContract sampleRequest.Hash
        = .ok ([], none)) :=
  ⟨decoders_other_selector gotron sampleApproveContract (sampleReceipt [sampleTransferLog])
      sampleRequest.Hash _ sampleApprove_unwraps (by decide),
   decoders_other_selector gotron sampleEmptyTriggerContract (sampleReceipt [sampleTransferLog])
      sampleRequest.Hash _ sampleEmptyTrigger_unwraps (by decide)⟩

/-- With the selector in front, the local decoder faults exactly when the data is
shorter than 36 bytes. -/
theorem decodeTriggerSmartContractLocal_short (E : Env) (c : Transaction_Contract)
    (hash : GoString) (tsc : TriggerSmartContract)
    (hun : E.unmarshalTrigger c.parameterValue = .ok tsc)
    (hsel : transferSelector <+: tsc.Data) (hlen : tsc.Data.length < 36) :
    decodeTriggerSmartContractLocal E c hash = .error .sliceOutOfRange := by
  rw [decodeTriggerSmartContractLocal_eq, hun]
  simp only [hsel, if_true]
  rw [if_neg (by omega)]

/-- C18 (the code departs from the claim): a payload that unwraps and whose
invocation data is the selector `a9 05 9c bb` alone makes the local decoder fault
on the slice `Data[16:36]`; it returns neither an error nor a list. -/
theorem decodeTriggerSmartContractLocal_short_sample :
    gotron.unmarshalTrigger sampleSelectorOnlyContract.parameterValue
        = .ok { OwnerAddress := [], ContractAddress := [], CallValue := 0,
                Data := transferSelector, CallTokenValue := 0, TokenId := 0 } ∧
      decodeTriggerSmartContractLocal gotron sampleSelectorOnlyContract sampleRequest.Hash
        = .error .sliceOutOfRange :=
  ⟨sampleSelectorOnly_unwraps, rfl⟩

/-! ## Claims on the totality and agreement of the smart-contract decoders -/

theorem sampleBareToken_unwraps :
    gotron.unmarshalTrigger sampleBareTokenContract.parameterValue
      = .ok sampleBareTokenTrigger := by
  rfl

/-- C19, as stated, fails: the target contract address is passed to the encoder as
the payload holds it. For the sample transfer with a 20-byte contract address
whose first byte is `0xa6`, the decoder returns one record whose `contractAddr` is
the encoding of that 20-byte address; with the encoder that returns its argument
the record shows the 20 bytes passed, next to the 21-byte addresses of the log. -/
theorem decodeTriggerSmartContract_encoder_counterexample :
    gotron.unmarshalTrigger sampleBareTokenContract.parameterValue
        = .ok sampleBareTokenTrigger ∧
      sampleBareTokenTrigger.ContractAddress.length = 20 ∧
      sampleBareTokenTrigger.ContractAddress.head? = some 0xa6 ∧
      (∃ d : depositInfo,
        decodeTriggerSmartContract gotron sampleBareTokenContract
          (sampleReceipt [sampleTransferLog]) sampleRequest.Hash = .ok ([d], none) ∧
        d.contractAddr = gotron.addressString sampleBareTokenTrigger.ContractAddress) ∧
      (∃ d : depositInfo,
        decodeTriggerSmartContract echoEnv sampleBareTokenContract
          (sampleReceipt [sampleTransferLog]) sampleRequest.Hash = .ok ([d], none) ∧
        d.contractAddr = sampleBareTokenTrigger.ContractAddress ∧
        d.contractAddr.length ≠ 21 ∧ d.fromAddr.length = 21 ∧ d.toAddr.length = 21) := by
  have hg : decodeTriggerSmartContract gotron sampleBareTokenContract
      (sampleReceipt [sampleTransferLog]) sampleRequest.Hash
        = .ok ([logRecord gotron (gotron.addressString sampleBareTokenTrigger.ContractAddress) 0
            sampleTransferLog], none) := by
    rw [decodeTriggerSmartContract_eq, sampleBareToken_unwraps]
    rfl
  have he : decodeTriggerSmartContract echoEnv sampleBareTokenContract
      (sampleReceipt [sampleTransferLog]) sampleRequest.Hash
        = .ok ([logRecord echoEnv sampleBareTokenTrigger.ContractAddress 0
            sampleTransferLog], none) := by
    rw [decodeTriggerSmartContract_eq]
    rfl
  exact ⟨sampleBareToken_unwraps, by decide, by decide, ⟨_, hg, rfl⟩,
    ⟨_, he, rfl, by decide, by decide, by decide⟩⟩

/-- C19, amended: with an address encoder that returns on every input,
`decodeTriggerSmartContract` returns for every payload and every receipt (no index
or slice is out of range, whatever the number of logs and topics and the lengths
of topics and data), and so does its log loop from any position; every record
comes from a log entry with exactly 3 topics whose topics 1 and 2 are 32 bytes
long, and the two addresses built from it and passed to the encoder are `0x41`
followed by the last 20 bytes of the topic: 21 bytes with first byte `0x41`. The
target contract address of a payload that unwraps is passed to the encoder as the
payload holds it, whatever its length. -/
theorem decodeTriggerSmartContract_total (E : Env) (c : Transaction_Contract)
    (txi : TransactionInfo) (hash : GoString) :
    (∃ (ds : List depositInfo) (err : Option GoError),
      decodeTriggerSmartContract E c txi hash = .ok (ds, err) ∧
      (∀ d ∈ ds, ∃ (l : TransactionInfo_Log) (t0 t1 t2 : List Byte),
        txi.Log[d.index]? = some l ∧ l.Topics = [t0, t1, t2] ∧
        t1.length = 32 ∧ t2.length = 32 ∧
        d.fromAddr = E.addressString ((0x41 : Byte) :: t1.drop 12) ∧
        d.toAddr = E.addressString ((0x41 : Byte) :: t2.drop 12) ∧
        ((0x41 : Byte) :: t1.drop 12).length = 21 ∧
        ((0x41 : Byte) :: t2.drop 12).length = 21 ∧
        ((0x41 : Byte) :: t1.drop 12).head? = some 0x41 ∧
        ((0x41 : Byte) :: t2.drop 12).head? = some 0x41) ∧
      (∀ tsc : TriggerSmartContract, E.unmarshalTrigger c.parameterValue = .ok tsc →
        ∀ d ∈ ds, d.contractAddr = E.addressString tsc.ContractAddress)) ∧
    (∀ (ca : GoString) (i : Nat) (acc : List depositInfo),
      ∃ out : List depositInfo, scanLogs E ca i txi.Log acc = .ok out) := by
  constructor
  · have hret : ∃ (ds : List depositInfo) (err : Option GoError),
        decodeTriggerSmartContract E c txi hash = .ok (ds, err) := by
      rw [decodeTriggerSmartContract_eq]
      split
      · exact ⟨_, _, rfl⟩
      · split <;> exact ⟨_, _, rfl⟩
    obtain ⟨ds, err, h⟩ := hret
    refine ⟨ds, err, h, ?_, ?_⟩
    · intro d hd
      obtain ⟨tsc, i, l, -, hl, hm, rfl⟩ :=
        mem_decodeTriggerSmartContract E c txi hash ds err h d hd
      unfold isTransferLog at hm
      split at hm
      · rename_i t0 t1 t2 ht
        simp only [decide_eq_true_eq] at hm
        refine ⟨l, t0, t1, t2, hl, ht, hm.2.1, hm.2.2, ?_, ?_, ?_, ?_, rfl, rfl⟩
        · simp [logRecord, ht]
        · simp [logRecord, ht]
        · simp [hm.2.1]
        · simp [hm.2.2]
      · cases hm
    · intro tsc hun d hd
      obtain ⟨tsc', i, l, hun', -, -, rfl⟩ :=
        mem_decodeTriggerSmartContract E c txi hash ds err h d hd
      rw [hun] at hun'
      cases hun'
      rfl
  · intro ca i acc
    exact ⟨_, scanLogs_eq E ca txi.Log i acc⟩

/-- Witness for C19, amended: the sample transfer and its log; the record's
addresses are the encodings of the 21-byte owner and recipient addresses and of
the payload's contract address. -/
theorem decodeTriggerSmartContract_total_witness :
    ∃ (ds : List depositInfo) (err : Option GoError),
      decodeTriggerSmartContract gotron sampleTriggerContract
        (sampleReceipt [sampleOtherLog, sampleTransferLog]) sampleRequest.Hash
          = .ok (ds, err) ∧
      ∀ d ∈ ds, d.contractAddr = gotron.addressString sampleToken := by
  obtain ⟨⟨ds, err, h, -, hc⟩, -⟩ :=
    decodeTriggerSmartContract_total gotron sampleTriggerContract
      (sampleReceipt [sampleOtherLog, sampleTransferLog]) sampleRequest.Hash
  exact ⟨ds, err, h, hc sampleTrigger sampleTrigger_unwraps⟩

/-- C20: on a well-formed single transfer the two decoders agree. When the owner
address is 21 bytes with first byte `0x41`, the invocation data is exactly 68
bytes starting with the selector, and the receipt has exactly one log entry, with
3 topics, the transfer signature as topic 0, 32-byte topics 1 and 2 whose low 20
bytes are the owner address without its prefix and data bytes 16..35, and log data
equal to data bytes 36..67, then `decodeTriggerSmartContractLocal` and
`decodeTriggerSmartContract` return the same one-element list of records. -/
theorem decoders_agree (E : Env) (c : Transaction_Contract) (txi : TransactionInfo)
    (hash : GoString) (tsc : TriggerSmartContract) (l : TransactionInfo_Log)
    (t1 t2 : List Byte)
    (hun : E.unmarshalTrigger c.parameterValue = .ok tsc)
    (_howner : tsc.OwnerAddress.length = 21) (hhead : tsc.OwnerAddress.head? = some 0x41)
    (hlen : tsc.Data.length = 68) (hsel : transferSelector <+: tsc.Data)
    (hlog : txi.Log = [l]) (htopics : l.Topics = [transferSignature, t1, t2])
    (h1 : t1.length = 32) (hfrom : t1.drop 12 = tsc.OwnerAddress.drop 1)
    (h2 : t2.length = 32) (hto : t2.drop 12 = (tsc.Data.take 36).drop 16)
    (hdata : l.Data = (tsc.Data.take 68).drop 36) :
    ∃ d : depositInfo,
      decodeTriggerSmartContractLocal E c hash = .ok ([d], none) ∧
      decodeTriggerSmartContract E c txi hash = .ok ([d], none) ∧
      d.index = 0 ∧ d.tokenID = [] ∧
      d.fromAddr = E.addressString tsc.OwnerAddress ∧
      d.contractAddr = E.addressString tsc.ContractAddress := by
  have hownerEq : (0x41 : Byte) :: tsc.OwnerAddress.drop 1 = tsc.OwnerAddress := by
    match hO : tsc.OwnerAddress, hhead with
    | b :: rest, hp =>
      simp only [List.head?_cons, Option.some.injEq] at hp
      simp [hp]
  have hdrop : (tsc.Data.take 68).drop 36 = tsc.Data.drop 36 := by
    rw [List.take_of_length_le (by omega)]
  have hm : isTransferLog l = true := by
    unfold isTransferLog
    rw [htopics]
    simp [h1, h2]
  refine ⟨{ tokenID := []
            fromAddr := E.addressString tsc.OwnerAddress
            toAddr := E.addressString ((0x41 : Byte) :: (tsc.Data.take 36).drop 16)
            amount := natString (setBytes (tsc.Data.drop 36))
            index := 0
            contractAddr := E.addressString tsc.ContractAddress }, ?_, ?_, rfl, rfl, rfl, rfl⟩
  · rw [decodeTriggerSmartContractLocal_eq, hun]
    simp only [hsel, if_true]
    rw [if_pos (by omega)]
  · rw [decodeTriggerSmartContract_eq, hun]
    simp only [hsel, if_true, hlog, transferRecords_cons, hm]
    have hownerEq' : (0x41 : Byte) :: tsc.OwnerAddress.tail = tsc.OwnerAddress := by
      rw [← List.drop_one]; exact hownerEq
    simp [transferRecords, logRecord, htopics, hfrom, hto, hdata, hdrop, hownerEq']

/-- Witness for C20: the sample `transfer` call and its transfer log. -/
theorem decoders_agree_witness :
    ∃ d : depositInfo,
      decodeTriggerSmartContractLocal gotron sampleTriggerContract sampleRequest.Hash
        = .ok ([d], none) ∧
      decodeTriggerSmartContract gotron sampleTriggerContract (sampleReceipt [sampleTransferLog])
        sampleRequest.Hash = .ok ([d], none) ∧
      d.index = 0 ∧ d.tokenID = [] := by
  obtain ⟨d, ha, hb, hi, ht, -, -⟩ :=
    decoders_agree gotron sampleTriggerContract (sampleReceipt [sampleTransferLog])
      sampleRequest.Hash sampleTrigger sampleTransferLog
      (List.replicate 12 0 ++ List.replicate 20 0x11)
      (List.replicate 12 0 ++ List.replicate 20 0x22)
      sampleTrigger_unwraps (by decide) (by decide) (by decide) (by decide) rfl rfl
      (by decide) (by decide) (by decide) (by decide) (by decide)
  exact ⟨d, ha, hb, hi, ht⟩

/-! ## Claims on the guards of `GetTxByHash` -/

/-- C16: for a fetched transaction whose single contract instruction is of a kind
other than native transfer, legacy asset transfer and smart-contract trigger,
`GetTxByHash` returns the error code `ERROR` and a non-nil error, whether the
receipt fetch fails or succeeds and whatever the receipt holds; with the receipt
fetched the error is the unsupported-contract-type error. -/
theorem GetTxByHash_unknown_kind (E : Env) (cfg : Config) (grpcClient : Client)
    (req : TxHashRequest) (c : Transaction_Contract)
    (hf : grpcClient.GetTransactionByID req.Hash = .ok { RawData := some { Contract := [c] } })
    (hk1 : c.Type' ≠ Transaction_Contract_TransferContract)
    (hk2 : c.Type' ≠ Transaction_Contract_TransferAssetContract)
    (hk3 : c.Type' ≠ Transaction_Contract_TriggerSmartContract) :
    ∃ err : GoError,
      GetTxByHash E cfg grpcClient req
        = .ok ({ Error := some { Code := .ERROR, Brief := cfg.UnsupportedOperation,
                                 Detail := cfg.UnsupportedChain, CanRetry := true }
                 Tx := none },
               some err) ∧
      ∀ txi : TransactionInfo, grpcClient.GetTransactionInfoByID req.Hash = .ok txi →
        err = .unsupportContractType c.Type' req.Hash := by
  unfold GetTxByHash
  rw [hf]
  simp only [List.length_singleton, ne_eq, not_true_eq_false, if_false]
  cases hinfo : grpcClient.GetTransactionInfoByID req.Hash with
  | error e =>
    refine ⟨e, rfl, ?_⟩
    intro txi h
    cases h
  | ok txi =>
    refine ⟨.unsupportContractType c.Type' req.Hash, ?_, fun _ _ => rfl⟩
    simp only [index, List.getElem?_cons_zero, bind, Except.bind, hk1, hk2, hk3, if_false]
    rfl

/-- Witness for C16: a witness-vote instruction with a receipt that holds a
transfer log. -/
theorem GetTxByHash_unknown_kind_witness :
    ∃ err : GoError,
      GetTxByHash gotron sampleConfig
          (sampleClient sampleVoteContract (sampleReceipt [sampleTransferLog])) sampleRequest
        = .ok ({ Error := some { Code := .ERROR, Brief := sampleConfig.UnsupportedOperation,
                                 Detail := sampleConfig.UnsupportedChain, CanRetry := true }
                 Tx := none },
               some err) ∧
      err = .unsupportContractType 4 sampleRequest.Hash := by
  obtain ⟨err, h, he⟩ := GetTxByHash_unknown_kind gotron sampleConfig
    (sampleClient sampleVoteContract (sampleReceipt [sampleTransferLog])) sampleRequest
    sampleVoteContract rfl (by decide) (by decide) (by decide)
  exact ⟨err, h, he _ rfl⟩

/-! ## Claims on `GetBalance` and `SendTx` -/

/-- C12: for a balance request with a non-empty contract address whose symbol
query succeeds with a symbol different from the request's chain symbol,
`GetBalance` returns the error code `ERROR` with the unsupported-operation
classification and `CanRetry` true, together with a non-nil error; the only call
made is the symbol query: no token balance lookup, no account lookup, no write to
the balance cache. -/
theorem GetBalance_symbol_mismatch (cfg : Config) (grpcClient : WalletClient)
    (req : BalanceRequest) (symbol : GoString)
    (hca : req.ContractAddress ≠ [])
    (hsym : grpcClient.TRC20GetSymbol req.ContractAddress = .ok symbol)
    (hne : symbol ≠ req.Chain) :
    GetBalance cfg grpcClient req
        = (({ Error := some { Code := .ERROR, Brief := cfg.UnsupportedOperation,
                              Detail := cfg.UnsupportedChain, CanRetry := true }
              Balance := [] },
            some (.symbolMismatch symbol req.Coin)),
           [.TRC20GetSymbol req.ContractAddress]) ∧
      ∀ call ∈ (GetBalance cfg grpcClient req).2,
        (∀ a ca : GoString, call ≠ .TRC20ContractBalance a ca) ∧
        (∀ a : GoString, call ≠ .GetAccount a) ∧
        (∀ (k : GoString) (v : Int), call ≠ .cacheAdd k v) := by
  have h : GetBalance cfg grpcClient req
      = (({ Error := some { Code := .ERROR, Brief := cfg.UnsupportedOperation,
                            Detail := cfg.UnsupportedChain, CanRetry := true }
            Balance := [] },
          some (.symbolMismatch symbol req.Coin)),
         [.TRC20GetSymbol req.ContractAddress]) := by
    unfold GetBalance
    simp only [ne_eq, hca, not_false_eq_true, if_true, hsym, hne]
    rfl
  refine ⟨h, ?_⟩
  rw [h]
  intro call hc
  have hcall := List.mem_singleton.mp hc
  refine ⟨?_, ?_, ?_⟩
  · intro a ca hx
    rw [hcall] at hx
    cases hx
  · intro a hx
    rw [hcall] at hx
    cases hx
  · intro k v hx
    rw [hcall] at hx
    cases hx

/-- Witness for C12: a token contract of symbol `USDT` queried with the chain
symbol `trx`. -/
theorem GetBalance_symbol_mismatch_witness :
    GetBalance sampleConfig sampleWalletClient
        (sampleBalanceRequest (goString "USDT") (goString "TR7NHqjeKQxGTCi8q8ZY4pL8otSzgjLj6t"))
      = (({ Error := some { Code := .ERROR, Brief := sampleConfig.UnsupportedOperation,
                            Detail := sampleConfig.UnsupportedChain, CanRetry := true }
            Balance := [] },
          some (.symbolMismatch (goString "USDT") (goString "USDT"))),
         [.TRC20GetSymbol (goString "TR7NHqjeKQxGTCi8q8ZY4pL8otSzgjLj6t")]) :=
  (GetBalance_symbol_mismatch sampleConfig sampleWalletClient
    (sampleBalanceRequest (goString "USDT") (goString "TR7NHqjeKQxGTCi8q8ZY4pL8otSzgjLj6t"))
    (goString "USDT") (by decide) rfl (by decide)).1

/-- C13: for a balance request with an empty contract address and a coin symbol
other than the native symbol `trx`, when the account lookup succeeds: if the
account's legacy-asset map has no entry for the coin symbol, `GetBalance` returns
the success code, `Balance` equal to `"0"` and no error; if it has an entry,
`Balance` is the base-10 text of that entry. -/
theorem GetBalance_legacy_asset (cfg : Config) (grpcClient : WalletClient)
    (req : BalanceRequest) (acc : Account)
    (hca : req.ContractAddress = [])
    (hcoin : req.Coin ≠ goString "trx")
    (hacc : grpcClient.GetAccount req.Address = .ok acc) :
    (acc.AssetV2.lookup req.Coin = none →
      (GetBalance cfg grpcClient req).1
        = ({ Error := some { Code := .SUCCESS, Brief := [], Detail := [], CanRetry := false }
             Balance := goString "0" }, none)) ∧
    (∀ r : Int, acc.AssetV2.lookup req.Coin = some r →
      (GetBalance cfg grpcClient req).1
          = ({ Error := some { Code := .SUCCESS, Brief := [], Detail := [], CanRetry := false }
               Balance := bigIntString r }, none) ∧
        IsSignedDecimalOf (bigIntString r) r) := by
  have hcoin' : ¬ req.Coin = TronSymbol := hcoin
  constructor
  · intro hnone
    unfold GetBalance
    simp only [hca, ne_eq, not_true_eq_false, if_false, hacc, hcoin', hnone]
    rfl
  · intro r hsome
    refine ⟨?_, bigIntString_isSignedDecimalOf r⟩
    unfold GetBalance
    simp only [hca, ne_eq, not_true_eq_false, if_false, hacc, hcoin', hsome]
    rfl

/-- Witness for C13: the sample account holds 12 units of the asset `1002000` and
none of the asset `1000001`. -/
theorem GetBalance_legacy_asset_witness :
    (GetBalance sampleConfig sampleWalletClient
        (sampleBalanceRequest (goString "1000001") [])).1
      = ({ Error := some { Code := .SUCCESS, Brief := [], Detail := [], CanRetry := false }
           Balance := goString "0" }, none) ∧
    (GetBalance sampleConfig sampleWalletClient
        (sampleBalanceRequest (goString "1002000") [])).1
      = ({ Error := some { Code := .SUCCESS, Brief := [], Detail := [], CanRetry := false }
           Balance := goString "12" }, none) :=
  ⟨(GetBalance_legacy_asset sampleConfig sampleWalletClient
      (sampleBalanceRequest (goString "1000001") [])
      { Balance := 1000000, AssetV2 := [(goString "1002000", 12)] } rfl (by decide) rfl).1
      (by decide),
   ((GetBalance_legacy_asset sampleConfig sampleWalletClient
      (sampleBalanceRequest (goString "1002000") [])
      { Balance := 1000000, AssetV2 := [(goString "1002000", 12)] } rfl (by decide) rfl).2
      12 (by decide)).1⟩

/-- The sample transaction deserializes. -/
theorem sampleRawTx_unmarshals :
    gotronTx.unmarshalTransaction sampleRawTx
      = .ok { RawData := some { Contract := [sampleTransferContract] } } := by
  rfl

/-- C14: for raw transaction bytes that do not deserialize into a transaction,
`SendTx` returns a response with the error code `ERROR` and no transaction hash,
as a value with a nil error, and makes no call at all: `Broadcast` is not
invoked. -/
theorem SendTx_malformed (P : TxCodec) (grpcClient : WalletClient) (req : SendTxRequest)
    (err : GoError) (hun : P.unmarshalTransaction req.RawTx = .error err) :
    SendTx P grpcClient req
        = (({ Error := some { Code := .ERROR, Brief := [], Detail := [], CanRetry := false }
              TxHash := [] }, none), []) ∧
      ∀ tx : Transaction, Call.Broadcast tx ∉ (SendTx P grpcClient req).2 := by
  have h : SendTx P grpcClient req
      = (({ Error := some { Code := .ERROR, Brief := [], Detail := [], CanRetry := false }
            TxHash := [] }, none), []) := by
    unfold SendTx
    rw [hun]
  refine ⟨h, ?_⟩
  rw [h]
  intro tx hc
  cases hc

/-- Witness for C14: the sample transaction cut short after 40 bytes. -/
theorem SendTx_malformed_witness :
    SendTx gotronTx sampleWalletClient { RawTx := sampleTruncatedRawTx }
      = (({ Error := some { Code := .ERROR, Brief := [], Detail := [], CanRetry := false }
            TxHash := [] }, none), []) :=
  (SendTx_malformed gotronTx sampleWalletClient { RawTx := sampleTruncatedRawTx }
    decodeError rfl).1

end Tron
